import Mathlib

set_option maxRecDepth 100000
set_option maxHeartbeats 2000000

/-
Verification development for the ext4_rs repository (an ext4 read/write
client over a byte-addressable image).

Shallow embedding conventions:
* the backing byte stream is modelled as a total function from byte
  address to byte value (disk : Nat -> Nat); reads never fail, so the
  I/O error channel of the Rust code is never exercised;
* machine integers are Nat with explicit reductions modulo 2^w at the
  places where the Rust code truncates or wraps;
* fallible Rust code is modelled with Except Err; Rust panics
  (assert!, unwrap on None, unimplemented!) are modelled by the
  dedicated error values Err.panicAssert and Err.panicUnimplemented,
  which are distinct from every recoverable error variant;
* stateful code is modelled by explicit state passing: an operation of
  the Rust FileSystem maps a state to a pair of a result and the state
  after the operation (mutations performed before an error persist,
  exactly as the RefCell / disk writes of the source persist).
-/

/-- Error values. Modelled from the spec: the source refers to a module
crate::error (its file is not part of src/); the recoverable variants
are the error kinds of spec section 7 together with the variant names
that appear at the use sites in src (NotEnoughSpace, NotFound,
AlreadyExists). The two panic values are not members of the Rust enum:
they model Rust panics (assert! failure, Option::unwrap on None,
unimplemented!), which crash instead of returning an error. -/
inductive Err where
  | io : Err
  | badMagic : Err
  | checksumMismatch : Err
  | notFound : Err
  | alreadyExists : Err
  | notEnoughSpace : Err
  | unsupported : Err
  | panicAssert : Err
  | panicUnimplemented : Err
deriving Repr, DecidableEq

/-- Read one byte of the image; byte values are kept below 256. -/
def rb (d : Nat → Nat) (p : Nat) : Nat := d p % 256

/-- Little-endian 16-bit read, as the read_u16_le helper of the io module. -/
def le16 (d : Nat → Nat) (p : Nat) : Nat := rb d p + 256 * rb d (p + 1)

/-- Little-endian 32-bit read, as the read_u32_le helper of the io module. -/
def le32 (d : Nat → Nat) (p : Nat) : Nat :=
  rb d p + 256 * rb d (p + 1) + 65536 * rb d (p + 2) + 16777216 * rb d (p + 3)

/-- Little-endian byte encoding of a 16-bit value. -/
def le16Bytes (v : Nat) : List Nat := [v % 256, v / 256 % 256]

/-- Little-endian byte encoding of a 32-bit value. -/
def le32Bytes (v : Nat) : List Nat :=
  [v % 256, v / 256 % 256, v / 65536 % 256, v / 16777216 % 256]

/-- Little-endian byte encoding of a 64-bit value. -/
def le64Bytes (v : Nat) : List Nat :=
  [v % 256, v / 256 % 256, v / 65536 % 256, v / 16777216 % 256,
   v / 4294967296 % 256, v / 1099511627776 % 256,
   v / 281474976710656 % 256, v / 72057594037927936 % 256]

/-- Overwrite the image with a list of bytes starting at position p
(write_all after a seek to p). -/
def writeBytes (d : Nat → Nat) (p : Nat) (bs : List Nat) : Nat → Nat :=
  fun a => if p ≤ a ∧ a < p + bs.length then bs.getD (a - p) 0 else d a

theorem writeBytes_lt (d : Nat → Nat) (p : Nat) (bs : List Nat) (a : Nat)
    (h : a < p) : writeBytes d p bs a = d a := by
  unfold writeBytes
  rw [if_neg]
  omega

theorem writeBytes_ge (d : Nat → Nat) (p : Nat) (bs : List Nat) (a : Nat)
    (h : p + bs.length ≤ a) : writeBytes d p bs a = d a := by
  unfold writeBytes
  rw [if_neg]
  omega

/-- One shift-and-conditionally-xor step of the reflected CRC32C.
Modelled from the spec: the source refers to utils::crc::crc32c (its
file is not part of src/); section 4.2 of the spec fixes the function as
the reflected Castagnoli CRC32 with chaining through the seed, which is
the following standard bitwise computation (0x82F63B78 is the reflected
form of the polynomial 0x1EDC6F41). -/
def crc32cStep (crc : Nat) : Nat :=
  if crc % 2 = 1 then Nat.xor (crc / 2) 0x82F63B78 else crc / 2

/-- Fold one byte into a reflected CRC32C accumulator. -/
def crc32cByte (crc b : Nat) : Nat :=
  crc32cStep^[8] (Nat.xor crc (b % 256))

/-- Left fold of crc32cByte over a byte list; the accumulator is
scrutinized at every step so that reduction keeps it a numeral (this
matches List.foldl crc32cByte but evaluates in constant depth). -/
def crcFold : Nat → List Nat → Nat
  | crc, [] => crc
  | crc, b :: rest =>
    match crc32cByte crc b with
    | 0 => crcFold 0 rest
    | Nat.succ m => crcFold (Nat.succ m) rest

/-- Modelled from the spec: crc32c(seed, data, len) of utils::crc (file
not part of src/), the table-driven reflected Castagnoli CRC-32 with
seed chaining and no final complement (callers chain raw values). -/
def crc32c (seed : Nat) (data : List Nat) (len : Nat) : Nat :=
  crcFold seed (data.take len)

deriving instance DecidableEq for Except

/-- The packed bit array of utils/bitmap.rs: one byte per list element,
bit 0 of a byte is the lowest index within that byte. -/
structure Bitmap where
  data : List Nat
deriving Repr, DecidableEq

/-- Bitmap::deserialize - read size bytes of the image starting at pos. -/
def Bitmap.deserialize (d : Nat → Nat) (pos size : Nat) : Bitmap :=
  ⟨(List.range size).map (fun i => rb d (pos + i))⟩

/-- Bitmap::serialize - write the data bytes back at pos. -/
def Bitmap.serialize (bm : Bitmap) (d : Nat → Nat) (pos : Nat) : Nat → Nat :=
  writeBytes d pos bm.data

/-- Bitmap::set_bit: or the bit into its byte (byte index bit / 8,
bit index bit mod 8). The source indexes the Vec and would panic out of
bounds; List.set is the identity there, and every use in this
development stays in bounds. -/
def Bitmap.set_bit (bm : Bitmap) (bit : Nat) : Bitmap :=
  ⟨bm.data.set (bit / 8) (Nat.lor (bm.data.getD (bit / 8) 0) (Nat.shiftLeft 1 (bit % 8)) % 256)⟩

/-- Bitmap::set_bits: set count bits starting at start. -/
def Bitmap.set_bits (bm : Bitmap) (start count : Nat) : Bitmap :=
  (List.range count).foldl (fun b i => b.set_bit (start + i)) bm

/-- Bitmap::get_bit. -/
def Bitmap.get_bit (bm : Bitmap) (bit : Nat) : Bool :=
  Nat.land (bm.data.getD (bit / 8) 0) (Nat.shiftLeft 1 (bit % 8)) ≠ 0

/-- Inner loop of Bitmap::find_unused_bit: first clear bit of a byte
among bit indices 0..8. -/
def fubBits (b : Nat) : Option Nat :=
  (List.range 8).find? (fun i => ¬ b.testBit i)

/-- Byte loop of Bitmap::find_unused_bit: scan bytes low to high,
skipping whole 0xFF bytes. -/
def fubBytes : List Nat → Nat → Option Nat
  | [], _ => none
  | b :: rest, byteIdx =>
    if b ≠ 255 then
      match fubBits b with
      | some i => some (byteIdx * 8 + i)
      | none => fubBytes rest (byteIdx + 1)
    else fubBytes rest (byteIdx + 1)

/-- Bitmap::find_unused_bit. -/
def Bitmap.find_unused_bit (bm : Bitmap) : Option Nat :=
  fubBytes bm.data 0

/-- The index returned when a run of count clear bits ends at flat bit
index p: the source computes byte_idx * 8 + bit_idx - count + 1 in
usize, whose subtraction wraps modulo 2^64 (release semantics). -/
def retWrap (p k : Nat) : Nat :=
  ((p + (2 ^ 64 - k % 2 ^ 64)) % 2 ^ 64 + 1) % 2 ^ 64

/-- The 8 bits of a byte, lowest index first, as scanned by the inner
loop for bit_idx in 0..8 of Bitmap::find_consecutive_unused_bits. -/
def byteBits (b : Nat) : List Bool :=
  (List.range 8).map (fun i => b.testBit i)

/-- Bit-level loop of Bitmap::find_consecutive_unused_bits: walk bits
at flat indices idx, idx+1, ...; a clear bit extends the running length
consec, a set bit resets it to 0; when the running length reaches count
the start index of the run is returned (Sum.inr), otherwise the final
running length is handed back to the byte loop (Sum.inl). -/
def fcubBits : List Bool → Nat → Nat → Nat → Sum Nat Nat
  | [], _, consec, _ => Sum.inl consec
  | false :: rest, idx, consec, count =>
    if consec + 1 = count then Sum.inr (retWrap idx count)
    else fcubBits rest (idx + 1) (consec + 1) count
  | true :: rest, idx, _, count => fcubBits rest (idx + 1) 0 count

/-- Byte-level loop of Bitmap::find_consecutive_unused_bits: bytes low
to high; a whole 0xFF byte is skipped and resets the running length;
any other byte is scanned bit 0 first. -/
def fcubBytes : List Nat → Nat → Nat → Nat → Option Nat
  | [], _, _, _ => none
  | b :: rest, byteIdx, consec, count =>
    if b ≠ 255 then
      match fcubBits (byteBits b) (byteIdx * 8) consec count with
      | Sum.inl c => fcubBytes rest (byteIdx + 1) c count
      | Sum.inr r => some r
    else fcubBytes rest (byteIdx + 1) 0 count

/-- Bitmap::find_consecutive_unused_bits. -/
def Bitmap.find_consecutive_unused_bits (bm : Bitmap) (count : Nat) : Option Nat :=
  fcubBytes bm.data 0 0 count

/-- Flattened bit sequence of a byte list, in scan order. -/
def bitsOfBytes : List Nat → List Bool
  | [] => []
  | b :: rest => byteBits b ++ bitsOfBytes rest

theorem byteBits_length (b : Nat) : (byteBits b).length = 8 := by
  simp [byteBits]

theorem bitsOfBytes_length (l : List Nat) : (bitsOfBytes l).length = 8 * l.length := by
  induction l with
  | nil => simp [bitsOfBytes]
  | cons b rest ih => simp [bitsOfBytes, byteBits_length, ih]; ring

theorem fcubBits_append (l₁ l₂ : List Bool) (idx c k : Nat) :
    fcubBits (l₁ ++ l₂) idx c k =
      match fcubBits l₁ idx c k with
      | Sum.inl c' => fcubBits l₂ (idx + l₁.length) c' k
      | Sum.inr r => Sum.inr r := by
  induction l₁ generalizing idx c with
  | nil => simp [fcubBits]
  | cons bit rest ih =>
    have harith : idx + (rest.length + 1) = idx + 1 + rest.length := by omega
    cases bit with
    | false =>
      by_cases hc : c + 1 = k
      · simp [fcubBits, hc]
      · rw [List.cons_append]
        simp only [fcubBits, if_neg hc, List.length_cons]
        rw [ih]
        simp only [harith]
    | true =>
      rw [List.cons_append]
      simp only [fcubBits, List.length_cons]
      rw [ih]
      simp only [harith]

theorem fcubBits_replicate_true (a idx c k : Nat) :
    fcubBits (List.replicate a true) idx c k = Sum.inl (if a = 0 then c else 0) := by
  induction a generalizing idx c with
  | zero => simp [fcubBits]
  | succ n ih =>
    rw [List.replicate_succ]
    simp only [fcubBits]
    rw [ih]
    cases n <;> simp

theorem byteBits_255 : byteBits 255 = List.replicate 8 true := by decide

theorem fcubBytes_eq_fcubBits (data : List Nat) (byteIdx c k : Nat) :
    fcubBytes data byteIdx c k =
      match fcubBits (bitsOfBytes data) (byteIdx * 8) c k with
      | Sum.inl _ => none
      | Sum.inr r => some r := by
  induction data generalizing byteIdx c with
  | nil => simp [fcubBytes, bitsOfBytes, fcubBits]
  | cons b rest ih =>
    simp only [fcubBytes, bitsOfBytes, fcubBits_append, byteBits_length]
    have harith : byteIdx * 8 + 8 = (byteIdx + 1) * 8 := by ring
    by_cases hb : b = 255
    · subst hb
      rw [if_neg (by simp)]
      rw [byteBits_255, fcubBits_replicate_true]
      simp only [List.length_replicate, harith]
      rw [ih]
      simp
    · rw [if_pos hb]
      cases hfb : fcubBits (byteBits b) (byteIdx * 8) c k with
      | inl c' =>
        simp only [harith]
        rw [ih]
      | inr r => rfl

theorem retWrap_eq (p k : Nat) (hk : 0 < k) (hkp : k ≤ p + 1) (hp : p < 2 ^ 64) :
    retWrap p k = p + 1 - k := by
  unfold retWrap
  omega

theorem fcubBits_falses_hit (rest : List Bool) (m idx c k : Nat)
    (hck : c < k) (hkm : k ≤ c + m) :
    fcubBits (List.replicate m false ++ rest) idx c k =
      Sum.inr (retWrap (idx + (k - c) - 1) k) := by
  induction m generalizing idx c with
  | zero => omega
  | succ n ih =>
    rw [List.replicate_succ, List.cons_append]
    simp only [fcubBits]
    by_cases hc : c + 1 = k
    · rw [if_pos hc]
      rw [show idx + (k - c) - 1 = idx from by omega]
    · rw [if_neg hc]
      rw [ih (idx + 1) (c + 1) (by omega) (by omega)]
      rw [show idx + 1 + (k - (c + 1)) - 1 = idx + (k - c) - 1 from by omega]

theorem fcubBits_falses_cont (rest : List Bool) (m idx c k : Nat)
    (h : c + m < k) :
    fcubBits (List.replicate m false ++ rest) idx c k =
      fcubBits rest (idx + m) (c + m) k := by
  induction m generalizing idx c with
  | zero => simp
  | succ n ih =>
    rw [List.replicate_succ, List.cons_append]
    simp only [fcubBits]
    rw [if_neg (by omega)]
    rw [ih (idx + 1) (c + 1) (by omega)]
    rw [show idx + 1 + n = idx + (n + 1) from by omega,
        show c + 1 + n = c + (n + 1) from by omega]

/-- C9: for a bitmap that is all ones except one gap of k consecutive
zero bits, find_consecutive_unused_bits(k) returns the index of the
first bit of the gap, and find_consecutive_unused_bits(k+1) returns
none; the scan is the byte-low-to-high, bit-0-lowest scan embedded
above, in which a whole 0xFF byte resets the running length. -/
theorem find_run_single_gap (bm : Bitmap) (s k t : Nat)
    (hk : 1 ≤ k)
    (hbits : bitsOfBytes bm.data =
      List.replicate s true ++ (List.replicate k false ++ List.replicate t true))
    (hsize : 8 * bm.data.length ≤ 2 ^ 64) :
    bm.find_consecutive_unused_bits k = some s ∧
      bm.find_consecutive_unused_bits (k + 1) = none := by
  have hlen : s + k ≤ 2 ^ 64 := by
    have h1 : (bitsOfBytes bm.data).length = 8 * bm.data.length := bitsOfBytes_length _
    rw [hbits] at h1
    simp [List.length_append, List.length_replicate] at h1
    omega
  have hfind : fcubBits (List.replicate s true ++
      (List.replicate k false ++ List.replicate t true)) 0 0 k = Sum.inr s := by
    rw [fcubBits_append, fcubBits_replicate_true]
    simp only [ite_self, List.length_replicate]
    show fcubBits (List.replicate k false ++ List.replicate t true) (0 + s) 0 k = Sum.inr s
    rw [fcubBits_falses_hit (List.replicate t true) k (0 + s) 0 k (by omega) (by omega)]
    rw [retWrap_eq (0 + s + (k - 0) - 1) k (by omega) (by omega) (by omega)]
    congr 1
    omega
  have hnone : fcubBits (List.replicate s true ++
      (List.replicate k false ++ List.replicate t true)) 0 0 (k + 1) =
      Sum.inl (if t = 0 then 0 + k else 0) := by
    rw [fcubBits_append, fcubBits_replicate_true]
    simp only [ite_self, List.length_replicate]
    show fcubBits (List.replicate k false ++ List.replicate t true) (0 + s) 0 (k + 1) = _
    rw [fcubBits_falses_cont (List.replicate t true) k (0 + s) 0 (k + 1) (by omega)]
    rw [fcubBits_replicate_true]
  constructor
  · unfold Bitmap.find_consecutive_unused_bits
    rw [fcubBytes_eq_fcubBits]
    simp only [Nat.zero_mul]
    rw [hbits, hfind]
  · unfold Bitmap.find_consecutive_unused_bits
    rw [fcubBytes_eq_fcubBits]
    simp only [Nat.zero_mul]
    rw [hbits, hnone]

/-- Witness for C9: the single byte 0b11100111 has the gap of two zero
bits at indices 3 and 4; find(2) returns 3, and find(3) returns none. -/
theorem find_run_single_gap_witness :
    (Bitmap.mk [231]).find_consecutive_unused_bits 2 = some 3 ∧
      (Bitmap.mk [231]).find_consecutive_unused_bits 3 = none :=
  find_run_single_gap (Bitmap.mk [231]) 3 2 3 (by decide) (by decide) (by decide)

/-- Read n bytes of the image starting at pos, in order. -/
def readBytesList (d : Nat → Nat) (pos n : Nat) : List Nat :=
  (List.range n).map (fun i => rb d (pos + i))

/-- Byte read from an in-memory buffer (out-of-range reads yield 0; the
source reads from a fixed 60-byte array, and every use in this
development stays inside the buffer). -/
def bgetD (l : List Nat) (i : Nat) : Nat := l.getD i 0 % 256

/-- Little-endian u16 read from a buffer. -/
def bu16 (l : List Nat) (p : Nat) : Nat := bgetD l p + 256 * bgetD l (p + 1)

/-- Little-endian u32 read from a buffer. -/
def bu32 (l : List Nat) (p : Nat) : Nat := bu16 l p + 65536 * bu16 l (p + 2)

/-- Combine lo and hi 32-bit halves (utils::combine_u64). -/
def combine_u64 (lo hi : Nat) : Nat := hi * 4294967296 + lo

/-- Combine lo and hi 16-bit halves (utils::combine_u32). -/
def combine_u32 (lo hi : Nat) : Nat := hi * 65536 + lo

/-- The 12-byte extent tree header of extent.rs. -/
structure ExtentHeader where
  magic : Nat
  entries : Nat
  max : Nat
  depth : Nat
  generation : Nat
deriving Repr, DecidableEq

/-- ExtentHeader::load_from_u8 at an offset of a buffer. -/
def ExtentHeader.load_from_u8 (buf : List Nat) (off : Nat) : ExtentHeader :=
  ⟨bu16 buf off, bu16 buf (off + 2), bu16 buf (off + 4), bu16 buf (off + 6), bu32 buf (off + 8)⟩

/-- ExtentHeader::is_leaf. -/
def ExtentHeader.is_leaf (h : ExtentHeader) : Bool := h.depth == 0

/-- The 12-byte leaf extent of extent.rs. -/
structure Extent where
  block : Nat
  len : Nat
  start_hi : Nat
  start_lo : Nat
deriving Repr, DecidableEq

/-- Extent::new: split the 48-bit physical start across hi and lo. -/
def Extent.new (block len start : Nat) : Extent :=
  ⟨block, len, start / 4294967296 % 65536, start % 4294967296⟩

/-- Extent::get_block_loc. -/
def Extent.get_block_loc (e : Extent) : Nat := combine_u64 e.start_lo e.start_hi

/-- Extent::load_from_u8 at an offset of a buffer. -/
def Extent.load_from_u8 (buf : List Nat) (off : Nat) : Extent :=
  ⟨bu32 buf off, bu16 buf (off + 4), bu16 buf (off + 6), bu32 buf (off + 8)⟩

/-- Extent::read_bytes: read n bytes at physical position
get_block_loc * block_size + offset. -/
def Extent.read_bytes (e : Extent) (block_size : Nat) (d : Nat → Nat) (offset n : Nat) :
    List Nat :=
  readBytesList d (e.get_block_loc * block_size + offset) n

/-- Insertion step of the stable sort of extents by logical block
(Vec::sort_by with compare on the block field). -/
def insertByBlock (e : Extent) : List Extent → List Extent
  | [] => [e]
  | x :: xs => if e.block ≤ x.block then e :: x :: xs else x :: insertByBlock e xs

/-- Stable sort of extents by logical block. -/
def sortByBlock : List Extent → List Extent
  | [] => []
  | x :: xs => insertByBlock x (sortByBlock xs)

/-- The osd2 (Linux2) area of inode.rs. -/
structure Linux2 where
  blocks_high : Nat
  file_acl_high : Nat
  uid_high : Nat
  gid_high : Nat
  checksum_lo : Nat
  reserved : Nat
deriving Repr, DecidableEq

/-- The in-core inode of inode.rs. The 60-byte inline area block is
kept as its byte list (the source holds it as [u32; 15] and reparses it
with byte-level pointer casts). -/
structure Inode where
  mode : Nat
  uid : Nat
  size_lo : Nat
  atime : Nat
  ctime : Nat
  mtime : Nat
  dtime : Nat
  gid : Nat
  links_count : Nat
  blocks_lo : Nat
  flags : Nat
  osd1 : Nat
  block : List Nat
  generation : Nat
  file_acl_lo : Nat
  size_hi : Nat
  obso_faddr : Nat
  osd2 : Linux2
  extra_isize : Nat
  checksum_hi : Nat
  ctime_extra : Nat
  mtime_extra : Nat
  atime_extra : Nat
  crtime : Nat
  crtime_extra : Nat
  version_hi : Nat
  projid : Nat
deriving Repr, DecidableEq

/-- Inode::default(): all fields zero (the inline area is 60 zero
bytes). -/
def Inode.default : Inode :=
  ⟨0, 0, 0, 0, 0, 0, 0, 0, 0, 0, 0, 0, List.replicate 60 0, 0, 0, 0, 0,
   ⟨0, 0, 0, 0, 0, 0⟩, 0, 0, 0, 0, 0, 0, 0, 0, 0⟩

/-- Inode::get_size. -/
def Inode.get_size (i : Inode) : Nat := combine_u64 i.size_lo i.size_hi

/-- Inode::set_size. -/
def Inode.set_size (i : Inode) (size : Nat) : Inode :=
  { i with size_lo := size % 4294967296, size_hi := size / 4294967296 % 4294967296 }

/-- Inode::is_dir: the file-type nibble of mode equals DIR (0x4000). -/
def Inode.is_dir (i : Inode) : Bool := Nat.land i.mode 0xF000 == 0x4000

/-- Inode::is_file: the file-type nibble of mode equals REG (0x8000). -/
def Inode.is_file (i : Inode) : Bool := Nat.land i.mode 0xF000 == 0x8000

/-- Inode::use_extents: flag EXTENTS_FL = 0x80000 (bit 19). -/
def Inode.use_extents (i : Inode) : Bool := Nat.testBit i.flags 19

/-- Inode::get_extents: parse the root extent header at offset 0 of the
inline area; a leaf root (depth 0) yields its entries extents, each 12
bytes, sorted by logical block; a missing EXTENTS_FL flag is the
assert! panic of the source, and depth > 0 is its unimplemented!()
panic (get_extents has no Unsupported error path). -/
def Inode.get_extents (i : Inode) : Except Err (List Extent) :=
  if i.use_extents = false then Except.error Err.panicAssert
  else
    let root_eh := ExtentHeader.load_from_u8 i.block 0
    if root_eh.is_leaf then
      Except.ok (sortByBlock ((List.range root_eh.entries).map
        (fun j => Extent.load_from_u8 i.block (12 + 12 * j))))
    else Except.error Err.panicUnimplemented

/-- Inode::init_extent_tree: write a leaf root header (magic 0xF30A,
entries 1, max 4, depth 0, generation 0) and the single extent into the
inline area; the source asserts that exactly one extent is passed. -/
def Inode.init_extent_tree (i : Inode) (extents : List Extent) : Except Err Inode :=
  match extents with
  | [e] =>
    let nb := le16Bytes 0xF30A ++ le16Bytes 1 ++ le16Bytes 4 ++ le16Bytes 0 ++
      le32Bytes 0 ++ le32Bytes e.block ++ le16Bytes e.len ++ le16Bytes e.start_hi ++
      le32Bytes e.start_lo ++ i.block.drop 24
    Except.ok { i with block := nb }
  | _ => Except.error Err.panicAssert

/-- Clamp the inline area to its fixed 60 bytes (the source field is a
fixed-size array; the model keeps the length invariant here). -/
def fix60 (l : List Nat) : List Nat :=
  (l.map (fun b => b % 256) ++ List.replicate 60 0).take 60

/-- Inode::serialize: the 160 bytes of the repr(C) inode struct, little
endian field by field. -/
def Inode.serializeBytes (i : Inode) : List Nat :=
  le16Bytes i.mode ++ le16Bytes i.uid ++ le32Bytes i.size_lo ++ le32Bytes i.atime ++
  le32Bytes i.ctime ++ le32Bytes i.mtime ++ le32Bytes i.dtime ++ le16Bytes i.gid ++
  le16Bytes i.links_count ++ le32Bytes i.blocks_lo ++ le32Bytes i.flags ++
  le32Bytes i.osd1 ++ fix60 i.block ++ le32Bytes i.generation ++ le32Bytes i.file_acl_lo ++
  le32Bytes i.size_hi ++ le32Bytes i.obso_faddr ++
  le16Bytes i.osd2.blocks_high ++ le16Bytes i.osd2.file_acl_high ++
  le16Bytes i.osd2.uid_high ++ le16Bytes i.osd2.gid_high ++
  le16Bytes i.osd2.checksum_lo ++ le16Bytes i.osd2.reserved ++
  le16Bytes i.extra_isize ++ le16Bytes i.checksum_hi ++ le32Bytes i.ctime_extra ++
  le32Bytes i.mtime_extra ++ le32Bytes i.atime_extra ++ le32Bytes i.crtime ++
  le32Bytes i.crtime_extra ++ le32Bytes i.version_hi ++ le32Bytes i.projid

/-- Inode::deserialize: parse the 160 inode bytes at position p of the
image. -/
def Inode.deserialize (d : Nat → Nat) (p : Nat) : Inode :=
  { mode := le16 d p, uid := le16 d (p + 2), size_lo := le32 d (p + 4),
    atime := le32 d (p + 8), ctime := le32 d (p + 12), mtime := le32 d (p + 16),
    dtime := le32 d (p + 20), gid := le16 d (p + 24), links_count := le16 d (p + 26),
    blocks_lo := le32 d (p + 28), flags := le32 d (p + 32), osd1 := le32 d (p + 36),
    block := readBytesList d (p + 40) 60, generation := le32 d (p + 100),
    file_acl_lo := le32 d (p + 104), size_hi := le32 d (p + 108),
    obso_faddr := le32 d (p + 112),
    osd2 := ⟨le16 d (p + 116), le16 d (p + 118), le16 d (p + 120), le16 d (p + 122),
             le16 d (p + 124), le16 d (p + 126)⟩,
    extra_isize := le16 d (p + 128), checksum_hi := le16 d (p + 130),
    ctime_extra := le32 d (p + 132), mtime_extra := le32 d (p + 136),
    atime_extra := le32 d (p + 140), crtime := le32 d (p + 144),
    crtime_extra := le32 d (p + 148), version_hi := le32 d (p + 152),
    projid := le32 d (p + 156) }

/-- Inode::compute_checksum: chain crc32c over the uuid (seed
0xFFFFFFFF), the little-endian inode number, the little-endian
generation, then inode_size bytes of the inode serialized with both
checksum fields zeroed (the source copies the 160 struct bytes into a
zero buffer of inode_size bytes). -/
def Inode.compute_checksum (i : Inode) (ino inode_size : Nat) (uuid : List Nat) : Nat :=
  let zeroed := { i with osd2 := { i.osd2 with checksum_lo := 0 }, checksum_hi := 0 }
  let csum := crc32c 0xFFFFFFFF uuid uuid.length
  let csum := crc32c csum (le32Bytes ino) 4
  let csum := crc32c csum (le32Bytes i.generation) 4
  crc32c csum (zeroed.serializeBytes ++ List.replicate (inode_size - 160) 0) inode_size

/-- Inode::compute_and_set_checksum: low 16 bits into osd2.checksum_lo;
high 16 bits into checksum_hi only when inode_size > 128. -/
def Inode.compute_and_set_checksum (i : Inode) (ino inode_size : Nat) (uuid : List Nat) :
    Inode :=
  let csum := i.compute_checksum ino inode_size uuid
  let i' := { i with osd2 := { i.osd2 with checksum_lo := csum % 65536 } }
  if 128 < inode_size then { i' with checksum_hi := csum / 65536 } else i'

/-- Iteration over the extents of File::read: skip extents wholly
before the running offset, read min(left, extent bytes - offset) bytes
from each participating extent, stop when nothing is left. The extents
logical block numbers play no role. -/
def readLoop (d : Nat → Nat) (bs : Nat) : List Extent → Nat → Nat → List Nat
  | [], _, _ => []
  | e :: rest, offset, left =>
    if e.len * bs ≤ offset then readLoop d bs rest (offset - e.len * bs) left
    else
      let n := min left (e.len * bs - offset)
      let chunk := e.read_bytes bs d offset n
      if left - n = 0 then chunk
      else chunk ++ readLoop d bs rest 0 (left - n)

/-- File::read: return 0 for offsets at or past the size, otherwise
clamp the requested length to size - offset, fetch the extent list and
walk it; the returned count is the clamped length. The source unwraps
get_extents, so its panics are propagated as the panic error values. -/
def File.read (inode : Inode) (offset bufLen : Nat) (d : Nat → Nat) (bs : Nat) :
    Except Err (Nat × List Nat) :=
  if inode.get_size ≤ offset then Except.ok (0, [])
  else
    let bytes_left := inode.get_size - offset
    let read_bytes := if bytes_left < bufLen then bytes_left else bufLen
    if read_bytes = 0 then Except.ok (0, [])
    else
      match inode.get_extents with
      | Except.error e => Except.error e
      | Except.ok extents => Except.ok (read_bytes, readLoop d bs extents offset read_bytes)

/-- Parsed (and sorted) leaf extents of an inode, as produced by the
success path of Inode::get_extents. -/
def inodeExtentsParsed (i : Inode) : List Extent :=
  sortByBlock ((List.range (ExtentHeader.load_from_u8 i.block 0).entries).map
    (fun j => Extent.load_from_u8 i.block (12 + 12 * j)))

theorem Inode.get_extents_ok (i : Inode) (hext : i.use_extents = true)
    (hleaf : (ExtentHeader.load_from_u8 i.block 0).depth = 0) :
    i.get_extents = Except.ok (inodeExtentsParsed i) := by
  unfold Inode.get_extents inodeExtentsParsed
  rw [hext]
  simp [ExtentHeader.is_leaf, hleaf]

/-- An extent-mapped inode whose root extent header has depth 1. -/
def depth1Inode : Inode :=
  { Inode.default with
      flags := 0x80000,
      block := le16Bytes 0xF30A ++ le16Bytes 1 ++ le16Bytes 4 ++ le16Bytes 1 ++
        le32Bytes 0 ++ List.replicate 48 0 }

/-- C5 counterexample: on a concrete inode whose embedded extent-tree
root header has depth 1, Inode::get_extents hits the unimplemented!()
panic of the source; it does not return the Unsupported error value
that the claim promises. -/
theorem get_extents_depth1_counterexample :
    Inode.get_extents depth1Inode = Except.error Err.panicUnimplemented ∧
      Inode.get_extents depth1Inode ≠ Except.error Err.unsupported := by
  constructor
  · decide
  · decide

/-- C5 amended: for every extent-mapped inode whose embedded root
header has depth different from 0, Inode::get_extents aborts with the
unimplemented!() panic (modelled as the panic error value), not with a
recoverable Unsupported error. -/
theorem get_extents_depth_pos_panics (i : Inode) (hext : i.use_extents = true)
    (hdepth : (ExtentHeader.load_from_u8 i.block 0).depth ≠ 0) :
    i.get_extents = Except.error Err.panicUnimplemented := by
  unfold Inode.get_extents
  rw [hext]
  simp [ExtentHeader.is_leaf, hdepth]

/-- Witness for the amended C5 theorem at the concrete depth-1 inode. -/
theorem get_extents_depth_pos_panics_witness :
    Inode.get_extents depth1Inode = Except.error Err.panicUnimplemented :=
  get_extents_depth_pos_panics depth1Inode (by decide) (by decide)

theorem file_read_eval (inode : Inode) (offset bufLen : Nat) (d : Nat → Nat) (bs : Nat)
    (hext : inode.use_extents = true)
    (hleaf : (ExtentHeader.load_from_u8 inode.block 0).depth = 0) :
    ∃ data, File.read inode offset bufLen d bs =
      Except.ok ((if inode.get_size ≤ offset then 0
        else min bufLen (inode.get_size - offset)), data) := by
  by_cases hoff : inode.get_size ≤ offset
  · refine ⟨[], ?_⟩
    simp only [File.read, if_pos hoff]
  · have hmin : (if inode.get_size - offset < bufLen then inode.get_size - offset
        else bufLen) = min bufLen (inode.get_size - offset) := by
      rcases Nat.lt_or_ge (inode.get_size - offset) bufLen with h | h
      · rw [if_pos h, Nat.min_eq_right h.le]
      · rw [if_neg (by omega), Nat.min_eq_left h]
    by_cases hz : (if inode.get_size - offset < bufLen then inode.get_size - offset
        else bufLen) = 0
    · refine ⟨[], ?_⟩
      simp only [File.read, if_neg hoff, if_pos hz]
      rw [← hmin, hz]
    · refine ⟨readLoop d bs (inodeExtentsParsed inode) offset
        (if inode.get_size - offset < bufLen then inode.get_size - offset else bufLen), ?_⟩
      simp only [File.read, if_neg hoff, if_neg hz,
        Inode.get_extents_ok inode hext hleaf]
      rw [hmin]

/-- C7: File::read on a regular extent-mapped (depth 0) file returns 0
bytes when offset is at or past the size, and otherwise returns exactly
min(buffer length, size - offset) bytes. -/
theorem file_read_count (inode : Inode) (offset bufLen : Nat) (d : Nat → Nat) (bs : Nat)
    (hfile : inode.is_file = true)
    (hext : inode.use_extents = true)
    (hleaf : (ExtentHeader.load_from_u8 inode.block 0).depth = 0) :
    ∃ data, File.read inode offset bufLen d bs =
      Except.ok ((if inode.get_size ≤ offset then 0
        else min bufLen (inode.get_size - offset)), data) :=
  file_read_eval inode offset bufLen d bs hext hleaf

/-- A regular file inode of size 6144 over two extents whose logical
blocks are 0 and 5: logical blocks 1..4 are a sparse hole. -/
def holeInode : Inode :=
  { Inode.default with
      mode := 0x8000,
      flags := 0x80000,
      size_lo := 6144,
      block := le16Bytes 0xF30A ++ le16Bytes 2 ++ le16Bytes 4 ++ le16Bytes 0 ++
        le32Bytes 0 ++
        le32Bytes 0 ++ le16Bytes 1 ++ le16Bytes 0 ++ le32Bytes 50 ++
        le32Bytes 5 ++ le16Bytes 1 ++ le16Bytes 0 ++ le32Bytes 60 ++
        List.replicate 24 0 }

/-- Whether some extent of the list maps logical block lb. -/
def coversBlock (extents : List Extent) (lb : Nat) : Prop :=
  ∃ e ∈ extents, e.block ≤ lb ∧ lb < e.block + e.len

instance (extents : List Extent) (lb : Nat) : Decidable (coversBlock extents lb) := by
  unfold coversBlock
  infer_instance

/-- A witness for C7 at a concrete regular file (size 100, one extent),
reading 10 bytes at offset 0. -/
def smallFileInode : Inode :=
  { Inode.default with
      mode := 0x8000,
      flags := 0x80000,
      size_lo := 100,
      block := le16Bytes 0xF30A ++ le16Bytes 1 ++ le16Bytes 4 ++ le16Bytes 0 ++
        le32Bytes 0 ++
        le32Bytes 0 ++ le16Bytes 1 ++ le16Bytes 0 ++ le32Bytes 50 ++
        List.replicate 36 0 }

/-- Witness for C7: the concrete small file read returns the clamped
count; here 0 < size and min(10, 100) = 10. -/
theorem file_read_count_witness :
    ∃ data, File.read smallFileInode 0 10 (fun _ => 0) 1024 =
      Except.ok ((if smallFileInode.get_size ≤ 0 then 0
        else min 10 (smallFileInode.get_size - 0)), data) :=
  file_read_count smallFileInode 0 10 (fun _ => 0) 1024 (by decide) (by decide) (by decide)

/-- C8 counterexample: reading 1024 bytes at offset 2048 of the
concrete sparse file covers logical block 2, which no extent maps; the
call does not fail with Unsupported - it returns the clamped count 1024
(with no byte actually read: the loop skipped both extents). -/
theorem file_read_hole_counterexample :
    (2048 / 1024 ≤ 2 ∧ 2 * 1024 < 2048 + 1024 ∧
      ¬ coversBlock (inodeExtentsParsed holeInode) 2) ∧
    File.read holeInode 2048 1024 (fun _ => 0) 1024 = Except.ok (1024, []) ∧
      File.read holeInode 2048 1024 (fun _ => 0) 1024 ≠ Except.error Err.unsupported := by
  refine ⟨⟨by decide, by decide, by decide⟩, by decide, by decide⟩

/-- C8 amended: a File::read whose range covers an unmapped logical
block (a sparse hole) does not fail with Unsupported; the extents
logical block numbers are ignored, the sorted extents are consumed as
if logically contiguous, and the call still returns the clamped count
min(buffer length, size - offset). -/
theorem file_read_hole_returns_count (inode : Inode) (offset bufLen : Nat)
    (d : Nat → Nat) (bs : Nat) (lb : Nat)
    (hext : inode.use_extents = true)
    (hleaf : (ExtentHeader.load_from_u8 inode.block 0).depth = 0)
    (hoff : offset < inode.get_size) (hbuf : 0 < bufLen)
    (hlb1 : offset / bs ≤ lb) (hlb2 : lb * bs < offset + bufLen)
    (hhole : ¬ coversBlock (inodeExtentsParsed inode) lb) :
    (∃ data, File.read inode offset bufLen d bs =
      Except.ok (min bufLen (inode.get_size - offset), data)) ∧
      File.read inode offset bufLen d bs ≠ Except.error Err.unsupported := by
  obtain ⟨data, hdata⟩ := file_read_eval inode offset bufLen d bs hext hleaf
  rw [if_neg (by omega)] at hdata
  refine ⟨⟨data, hdata⟩, ?_⟩
  rw [hdata]
  simp

/-- Witness for the amended C8 theorem at the concrete sparse file. -/
theorem file_read_hole_returns_count_witness :
    (∃ data, File.read holeInode 2048 512 (fun _ => 0) 1024 =
      Except.ok (min 512 (Inode.get_size holeInode - 2048), data)) ∧
      File.read holeInode 2048 512 (fun _ => 0) 1024 ≠ Except.error Err.unsupported :=
  file_read_hole_returns_count holeInode 2048 512 (fun _ => 0) 1024 2
    (by decide) (by decide) (by decide) (by decide) (by decide) (by decide) (by decide)

/-- The in-core superblock of super_block.rs. The source struct is the
full 1024-byte ext4 superblock; the model keeps the fields that the
embedded operations read (no embedded operation writes any superblock
field). Offsets of the omitted fields still count: deserialization
reads each kept field at its byte offset in the 1024-byte record. -/
structure SuperBlock where
  inodes_count : Nat
  blocks_count_lo : Nat
  free_blocks_count_lo : Nat
  free_inodes_count : Nat
  first_data_block : Nat
  log_block_size : Nat
  blocks_per_group : Nat
  inodes_per_group : Nat
  magic : Nat
  inode_size : Nat
  feature_compat : Nat
  feature_incompat : Nat
  feature_ro_compat : Nat
  uuid : List Nat
  desc_size : Nat
  blocks_count_hi : Nat
  free_blocks_count_hi : Nat
  want_extra_isize : Nat
deriving Repr, DecidableEq

/-- SuperBlock::PADDING_OFFSET. -/
def SuperBlock.PADDING_OFFSET : Nat := 1024

/-- Size in bytes of the repr(C) superblock struct (the BGD table
starts at PADDING_OFFSET + this). -/
def sizeofSuperBlock : Nat := 1024

/-- SuperBlock::deserialize: seek to byte 1024 and read the record;
each field sits at its fixed offset. The source checks nothing here -
in particular the magic field is read but never compared to 0xEF53. -/
def SuperBlock.deserialize (d : Nat → Nat) : SuperBlock :=
  { inodes_count := le32 d 1024,
    blocks_count_lo := le32 d 1028,
    free_blocks_count_lo := le32 d 1036,
    free_inodes_count := le32 d 1040,
    first_data_block := le32 d 1044,
    log_block_size := le32 d 1048,
    blocks_per_group := le32 d 1056,
    inodes_per_group := le32 d 1064,
    magic := le16 d 1080,
    inode_size := le16 d 1112,
    feature_compat := le32 d 1116,
    feature_incompat := le32 d 1120,
    feature_ro_compat := le32 d 1124,
    uuid := readBytesList d 1128 16,
    desc_size := le16 d 1278,
    blocks_count_hi := le32 d 1360,
    free_blocks_count_hi := le32 d 1368,
    want_extra_isize := le16 d 1374 }

/-- SuperBlock::get_block_size: 1024 shifted left by log_block_size;
the u64 shift of the source masks the shift amount to 6 bits in
release builds. -/
def SuperBlock.get_block_size (sb : SuperBlock) : Nat :=
  1024 * 2 ^ (sb.log_block_size % 64) % 2 ^ 64

/-- SuperBlock::get_block_group_count: ceiling of blocks_count over
blocks_per_group, truncated to u32. A zero blocks_per_group would be a
division-by-zero panic in the source; the division below then yields 0
and no theorem relies on that case. -/
def SuperBlock.get_block_group_count (sb : SuperBlock) : Nat :=
  (combine_u64 sb.blocks_count_lo sb.blocks_count_hi + sb.blocks_per_group - 1)
    / sb.blocks_per_group % 4294967296

/-- SuperBlock::get_inode_size. -/
def SuperBlock.get_inode_size (sb : SuperBlock) : Nat := sb.inode_size

/-- SuperBlock::get_desc_size. -/
def SuperBlock.get_desc_size (sb : SuperBlock) : Nat := sb.desc_size

/-- SuperBlock::has_feature_incompat_filetype: FILETYPE is bit 1 of
feature_incompat. -/
def SuperBlock.has_feature_incompat_filetype (sb : SuperBlock) : Bool :=
  Nat.testBit sb.feature_incompat 1

/-- SuperBlock::has_feature_ro_compat_metadata_csum: METADATA_CSUM is
bit 10 of feature_ro_compat. -/
def SuperBlock.has_feature_ro_compat_metadata_csum (sb : SuperBlock) : Bool :=
  Nat.testBit sb.feature_ro_compat 10

/-- The block group descriptor of descriptor.rs (64 bytes). -/
structure BGD where
  block_bitmap_lo : Nat
  inode_bitmap_lo : Nat
  inode_table_lo : Nat
  free_blocks_count_lo : Nat
  free_inodes_count_lo : Nat
  used_dirs_count_lo : Nat
  flags : Nat
  exclude_bitmap_lo : Nat
  block_bitmap_csum_lo : Nat
  inode_bitmap_csum_lo : Nat
  itable_unused_lo : Nat
  checksum : Nat
  block_bitmap_hi : Nat
  inode_bitmap_hi : Nat
  inode_table_hi : Nat
  free_blocks_count_hi : Nat
  free_inodes_count_hi : Nat
  used_dirs_count_hi : Nat
  itable_unused_hi : Nat
  exclude_bitmap_hi : Nat
  block_bitmap_csum_hi : Nat
  inode_bitmap_csum_hi : Nat
  reserved : Nat
deriving Repr, DecidableEq

/-- BlockGroupDescriptor::deserialize: parse the 64 descriptor bytes at
position p of the image. -/
def BGD.deserialize (d : Nat → Nat) (p : Nat) : BGD :=
  { block_bitmap_lo := le32 d p,
    inode_bitmap_lo := le32 d (p + 4),
    inode_table_lo := le32 d (p + 8),
    free_blocks_count_lo := le16 d (p + 12),
    free_inodes_count_lo := le16 d (p + 14),
    used_dirs_count_lo := le16 d (p + 16),
    flags := le16 d (p + 18),
    exclude_bitmap_lo := le32 d (p + 20),
    block_bitmap_csum_lo := le16 d (p + 24),
    inode_bitmap_csum_lo := le16 d (p + 26),
    itable_unused_lo := le16 d (p + 28),
    checksum := le16 d (p + 30),
    block_bitmap_hi := le32 d (p + 32),
    inode_bitmap_hi := le32 d (p + 36),
    inode_table_hi := le32 d (p + 40),
    free_blocks_count_hi := le16 d (p + 44),
    free_inodes_count_hi := le16 d (p + 46),
    used_dirs_count_hi := le16 d (p + 48),
    itable_unused_hi := le16 d (p + 50),
    exclude_bitmap_hi := le32 d (p + 52),
    block_bitmap_csum_hi := le16 d (p + 56),
    inode_bitmap_csum_hi := le16 d (p + 58),
    reserved := le32 d (p + 60) }

/-- BlockGroupDescriptor::serialize: the 64 bytes of the repr(C)
descriptor, little endian field by field. -/
def BGD.serializeBytes (g : BGD) : List Nat :=
  le32Bytes g.block_bitmap_lo ++ le32Bytes g.inode_bitmap_lo ++ le32Bytes g.inode_table_lo ++
  le16Bytes g.free_blocks_count_lo ++ le16Bytes g.free_inodes_count_lo ++
  le16Bytes g.used_dirs_count_lo ++ le16Bytes g.flags ++ le32Bytes g.exclude_bitmap_lo ++
  le16Bytes g.block_bitmap_csum_lo ++ le16Bytes g.inode_bitmap_csum_lo ++
  le16Bytes g.itable_unused_lo ++ le16Bytes g.checksum ++
  le32Bytes g.block_bitmap_hi ++ le32Bytes g.inode_bitmap_hi ++ le32Bytes g.inode_table_hi ++
  le16Bytes g.free_blocks_count_hi ++ le16Bytes g.free_inodes_count_hi ++
  le16Bytes g.used_dirs_count_hi ++ le16Bytes g.itable_unused_hi ++
  le32Bytes g.exclude_bitmap_hi ++ le16Bytes g.block_bitmap_csum_hi ++
  le16Bytes g.inode_bitmap_csum_hi ++ le32Bytes g.reserved

/-- BlockGroupDescriptor::get_block_bitmap_loc. -/
def BGD.get_block_bitmap_loc (g : BGD) : Nat := combine_u64 g.block_bitmap_lo g.block_bitmap_hi

/-- BlockGroupDescriptor::get_inode_bitmap_loc. -/
def BGD.get_inode_bitmap_loc (g : BGD) : Nat := combine_u64 g.inode_bitmap_lo g.inode_bitmap_hi

/-- BlockGroupDescriptor::get_inode_table_loc. -/
def BGD.get_inode_table_loc (g : BGD) : Nat := combine_u64 g.inode_table_lo g.inode_table_hi

/-- BlockGroupDescriptor::get_free_inodes_count. -/
def BGD.get_free_inodes_count (g : BGD) : Nat :=
  combine_u32 g.free_inodes_count_lo g.free_inodes_count_hi

/-- BlockGroupDescriptor::get_free_blocks_count. -/
def BGD.get_free_blocks_count (g : BGD) : Nat :=
  combine_u32 g.free_blocks_count_lo g.free_blocks_count_hi

/-- BlockGroupDescriptor::get_used_dirs_count. -/
def BGD.get_used_dirs_count (g : BGD) : Nat :=
  combine_u32 g.used_dirs_count_lo g.used_dirs_count_hi

/-- BlockGroupDescriptor::get_itable_unused. -/
def BGD.get_itable_unused (g : BGD) : Nat :=
  combine_u32 g.itable_unused_lo g.itable_unused_hi

/-- BlockGroupDescriptor::set_free_inodes_count: split across lo and hi
16-bit halves. -/
def BGD.set_free_inodes_count (g : BGD) (count : Nat) : BGD :=
  { g with free_inodes_count_lo := count % 65536, free_inodes_count_hi := count / 65536 % 65536 }

/-- BlockGroupDescriptor::set_free_blocks_count. -/
def BGD.set_free_blocks_count (g : BGD) (count : Nat) : BGD :=
  { g with free_blocks_count_lo := count % 65536, free_blocks_count_hi := count / 65536 % 65536 }

/-- BlockGroupDescriptor::set_used_dirs_count. -/
def BGD.set_used_dirs_count (g : BGD) (count : Nat) : BGD :=
  { g with used_dirs_count_lo := count % 65536, used_dirs_count_hi := count / 65536 % 65536 }

/-- BlockGroupDescriptor::set_itable_unused. -/
def BGD.set_itable_unused (g : BGD) (count : Nat) : BGD :=
  { g with itable_unused_lo := count % 65536, itable_unused_hi := count / 65536 % 65536 }

/-- BlockGroupDescriptor::set_inode_bitmap_csum: a no-op without the
METADATA_CSUM feature; otherwise crc32c chained over the uuid then
(inodes_per_group + 7) / 8 bitmap bytes, split into lo and hi halves. -/
def BGD.set_inode_bitmap_csum (g : BGD) (sb : SuperBlock) (bitmap : List Nat) : BGD :=
  if sb.has_feature_ro_compat_metadata_csum = false then g
  else
    let csum := crc32c 0xFFFFFFFF sb.uuid sb.uuid.length
    let csum := crc32c csum bitmap ((sb.inodes_per_group + 7) / 8)
    { g with inode_bitmap_csum_lo := csum % 65536, inode_bitmap_csum_hi := csum / 65536 }

/-- BlockGroupDescriptor::set_block_bitmap_csum: as the inode variant,
over blocks_per_group / 8 bitmap bytes. -/
def BGD.set_block_bitmap_csum (g : BGD) (sb : SuperBlock) (bitmap : List Nat) : BGD :=
  if sb.has_feature_ro_compat_metadata_csum = false then g
  else
    let csum := crc32c 0xFFFFFFFF sb.uuid sb.uuid.length
    let csum := crc32c csum bitmap (sb.blocks_per_group / 8)
    { g with block_bitmap_csum_lo := csum % 65536, block_bitmap_csum_hi := csum / 65536 }

/-- BlockGroupDescriptor::compute_checksum: crc32c chained over the
uuid, the little-endian descriptor id and the 64 descriptor bytes with
the checksum field zeroed; low 16 bits. The source asserts that the
serialized length equals desc_size of the superblock, a panic when
desc_size differs from 64. -/
def BGD.compute_checksum (g : BGD) (bgd_id : Nat) (sb : SuperBlock) : Except Err Nat :=
  if sb.get_desc_size ≠ 64 then Except.error Err.panicAssert
  else
    let zeroed := { g with checksum := 0 }
    let csum := crc32c 0xFFFFFFFF sb.uuid sb.uuid.length
    let csum := crc32c csum (le32Bytes bgd_id) 4
    Except.ok (crc32c csum zeroed.serializeBytes 64 % 65536)

/-- BlockGroupDescriptor::set_checksum. -/
def BGD.set_checksum (g : BGD) (bgd_id : Nat) (sb : SuperBlock) : Except Err BGD :=
  match g.compute_checksum bgd_id sb with
  | Except.error e => Except.error e
  | Except.ok csum => Except.ok { g with checksum := csum }

/-- The mounted filesystem state: the in-memory superblock and BGD
vector of the Rust FileSystem (both RefCell), and the backing image. -/
structure FsState where
  superBlock : SuperBlock
  bgds : List BGD
  disk : Nat → Nat

/-- FileSystem::new: read the superblock at byte 1024, then
block_group_count descriptors sequentially from byte 2048 (1024 bytes
of padding plus the 1024-byte superblock record), 64 bytes each. The
only failure source of the Rust code is the stream, which the pure
image model cannot fail; nothing - in particular not the superblock
magic - is verified. -/
def FileSystem.new (d : Nat → Nat) : Except Err FsState :=
  let sb := SuperBlock.deserialize d
  Except.ok ⟨sb,
    (List.range sb.get_block_group_count).map (fun i => BGD.deserialize d (2048 + 64 * i)), d⟩

/-- A disk image whose superblock magic field holds 0x1234 instead of
0xEF53 (blocks_count 8, blocks_per_group 8: one block group). -/
def badMagicDisk : Nat → Nat :=
  writeBytes (writeBytes (writeBytes (fun _ => 0) 1080 (le16Bytes 0x1234))
    1028 (le32Bytes 8)) 1056 (le32Bytes 8)

/-- C6 counterexample: mounting a concrete image whose superblock magic
is 0x1234 (not 0xEF53) succeeds; no BadMagic error is returned. -/
theorem mount_bad_magic_succeeds_counterexample :
    ∃ fs, FileSystem.new badMagicDisk = Except.ok fs ∧
      fs.superBlock.magic = 0x1234 ∧ fs.superBlock.magic ≠ 0xEF53 := by
  refine ⟨_, rfl, ?_, ?_⟩
  · decide
  · decide

/-- C6 amended: neither SuperBlock::deserialize nor FileSystem::new
compares the magic field to 0xEF53; for every image, mounting succeeds
and the in-memory magic is whatever 16-bit value sits at byte 1080
(1024 + 56) of the image. -/
theorem mount_never_checks_magic (d : Nat → Nat) :
    ∃ fs, FileSystem.new d = Except.ok fs ∧ fs.superBlock.magic = le16 d 1080 :=
  ⟨_, rfl, rfl⟩

/-- Wrapping u16 subtraction (release semantics of the u16 arithmetic
in dir_entry.rs; a debug build would panic on underflow, which no use
in this development reaches). -/
def wsub16 (a b : Nat) : Nat := (a % 65536 + 65536 - b % 65536) % 65536

/-- Wrapping u32 subtraction (release semantics; used for the
unguarded itable_unused decrement of alloc_inode). -/
def wsub32 (a b : Nat) : Nat := (a % 4294967296 + 4294967296 - b % 4294967296) % 4294967296

/-- The directory entry record of dir_entry.rs: the 16-bit-name-length
variant (DirEntry1, no FILETYPE feature), the 8-bit-name-length variant
with a file_type byte (DirEntry2), and the 12-byte tail pseudo-entry.
Names are byte lists (the source stores a fixed 255-byte array and a
length). -/
inductive DirEntryData where
  | entry1 (inode rec_len name_len : Nat) (name : List Nat)
  | entry2 (inode rec_len name_len file_type : Nat) (name : List Nat)
  | tail (reserved_zero1 rec_len reserved_zero2 reserved_ft checksum : Nat)
deriving Repr, DecidableEq

/-- DirEntryData::get_inode (0 for the tail). -/
def DirEntryData.get_inode : DirEntryData → Nat
  | DirEntryData.entry1 i _ _ _ => i
  | DirEntryData.entry2 i _ _ _ _ => i
  | DirEntryData.tail _ _ _ _ _ => 0

/-- DirEntryData::get_rec_len. -/
def DirEntryData.get_rec_len : DirEntryData → Nat
  | DirEntryData.entry1 _ r _ _ => r
  | DirEntryData.entry2 _ r _ _ _ => r
  | DirEntryData.tail _ r _ _ _ => r

/-- DirEntryData::set_rec_len (the source argument and field are u16). -/
def DirEntryData.set_rec_len : DirEntryData → Nat → DirEntryData
  | DirEntryData.entry1 i _ nl n, r => DirEntryData.entry1 i r nl n
  | DirEntryData.entry2 i _ nl ft n, r => DirEntryData.entry2 i r nl ft n
  | DirEntryData.tail z _ z2 ft c, r => DirEntryData.tail z r z2 ft c

/-- DirEntryData::get_real_rec_len: the minimal 4-byte-aligned record
length for the stored name length, (name_len + 8 + 3) / 4 * 4; the
tail answers its own rec_len. -/
def DirEntryData.get_real_rec_len : DirEntryData → Nat
  | DirEntryData.entry1 _ _ nl _ => (nl + 8 + 3) / 4 * 4
  | DirEntryData.entry2 _ _ nl _ _ => (nl + 8 + 3) / 4 * 4
  | DirEntryData.tail _ r _ _ _ => r

/-- DirEntryData::get_name_str, as the byte sequence of the first
name_len stored name bytes (the source converts to a string; all names
in this development are ASCII). -/
def DirEntryData.get_name : DirEntryData → List Nat
  | DirEntryData.entry1 _ _ nl n => (List.range nl).map (fun i => bgetD n i)
  | DirEntryData.entry2 _ _ nl _ n => (List.range nl).map (fun i => bgetD n i)
  | DirEntryData.tail _ _ _ _ _ => []

/-- Checksum accessor of the tail pseudo-entry (used by the add-entry
protocol on the recorded tail; the source file defining it for the
other variants is not under src/, and it is only ever called on a
tail). -/
def DirEntryData.get_checksum : DirEntryData → Nat
  | DirEntryData.tail _ _ _ _ c => c
  | _ => 0

/-- DirEntryData::new: fresh ordinary entry with the minimal aligned
rec_len (8 + name length rounded up to 4); variant and name-length
width chosen by the FILETYPE feature; a missing file type is UNKNOWN
(0). -/
def DirEntryData.new (ino : Nat) (name : List Nat) (file_type : Option Nat)
    (ftFeature : Bool) : DirEntryData :=
  let name_len := name.length
  let rec_len := (8 + name_len + 3) / 4 * 4 % 65536
  if ftFeature then DirEntryData.entry2 ino rec_len (name_len % 256) (file_type.getD 0) name
  else DirEntryData.entry1 ino rec_len (name_len % 65536) name

/-- DirEntryData::serialize: header fields little endian, then the
first name_len stored name bytes, then zero padding of
rec_len - name_len - 8 bytes (u16 arithmetic); the tail serializes its
five fields. -/
def DirEntryData.serializeBytes : DirEntryData → List Nat
  | DirEntryData.entry1 i r nl n =>
    le32Bytes i ++ le16Bytes r ++ le16Bytes nl ++
    (List.range nl).map (fun j => bgetD n j) ++
    List.replicate (wsub16 (wsub16 r nl) 8) 0
  | DirEntryData.entry2 i r nl ft n =>
    le32Bytes i ++ le16Bytes r ++ [nl % 256, ft % 256] ++
    (List.range nl).map (fun j => bgetD n j) ++
    List.replicate (wsub16 (wsub16 r nl) 8) 0
  | DirEntryData.tail z r z2 ft c =>
    le32Bytes z ++ le16Bytes r ++ [z2 % 256, ft % 256] ++ le32Bytes c

/-- DirEntryData::deserialize at a position of the image: read inode
and rec_len, detect the tail (inode 0, rec_len 12, with asserted
marker bytes), else read the variant selected by the FILETYPE feature.
The max_size asserts of the source are the panic paths. -/
def DirEntryData.deserialize (d : Nat → Nat) (pos : Nat) (ftFeature : Bool)
    (max_size : Nat) : Except Err DirEntryData :=
  if max_size < 6 then Except.error Err.panicAssert
  else
    let inode := le32 d pos
    let rec_len := le16 d (pos + 4)
    if max_size < rec_len then Except.error Err.panicAssert
    else if inode = 0 ∧ rec_len = 12 then
      let rz2 := rb d (pos + 6)
      let ft := rb d (pos + 7)
      if rz2 ≠ 0 then Except.error Err.panicAssert
      else if ft ≠ 0xDE then Except.error Err.panicAssert
      else Except.ok (DirEntryData.tail 0 12 rz2 ft (le32 d (pos + 8)))
    else if ftFeature then
      Except.ok (DirEntryData.entry2 inode rec_len (rb d (pos + 6)) (rb d (pos + 7))
        (readBytesList d (pos + 8) (rb d (pos + 6))))
    else
      Except.ok (DirEntryData.entry1 inode rec_len (le16 d (pos + 6))
        (readBytesList d (pos + 8) (le16 d (pos + 6))))

/-- Extent::read_entrydata: assert the offset is inside the extent,
then deserialize one entry at physical position
get_block_loc * block_size + offset with the remaining extent bytes as
max_size. The source always wraps the parsed entry in Some. -/
def Extent.read_entrydata (e : Extent) (block_size : Nat) (ftFeature : Bool)
    (d : Nat → Nat) (offset : Nat) : Except Err (Option DirEntryData) :=
  let size := e.len * block_size
  if size < offset then Except.error Err.panicAssert
  else
    match DirEntryData.deserialize d (e.get_block_loc * block_size + offset) ftFeature
      (size - offset) with
    | Except.error err => Except.error err
    | Except.ok entry => Except.ok (some entry)

/-- Extent::write_entrydata: serialize one entry at physical position
get_block_loc * block_size + offset (serialization of a tail asserts
rec_len 12). -/
def Extent.write_entrydata (e : Extent) (block_size : Nat) (d : Nat → Nat) (offset : Nat)
    (data : DirEntryData) : Except Err (Nat → Nat) :=
  match data with
  | DirEntryData.tail _ r _ _ _ =>
    if r ≠ 12 then Except.error Err.panicAssert
    else Except.ok (writeBytes d (e.get_block_loc * block_size + offset) data.serializeBytes)
  | _ => Except.ok (writeBytes d (e.get_block_loc * block_size + offset) data.serializeBytes)

/-- Modelled from the spec: DirEntryData::compute_dirblock_checksum
(called from dir.rs but its definition is not under src/). Spec section
3, directory block: crc32c seeded 0xFFFFFFFF chained over the volume
uuid, LE(dir_ino), LE(generation), then the block-minus-tail bytes
serialized from the entry sequence (each entry padded to its rec_len,
so under the tiling invariant the sequence is block_size - 12 bytes;
new_dir_entries in src computes the same chain over the concatenated
entry bytes). -/
def DirEntryData.compute_dirblock_checksum (entries : List DirEntryData)
    (block_size : Nat) (uuid : List Nat) (ino gen : Nat) : Nat :=
  let block := entries.foldr (fun e acc => e.serializeBytes ++ acc) []
  let csum := crc32c 0xFFFFFFFF uuid uuid.length
  let csum := crc32c csum (le32Bytes ino) 4
  let csum := crc32c csum (le32Bytes gen) 4
  crc32c csum block block.length

/-- DirEntryData::new_dir_entries: the three records of a fresh
directory block: "." to the new inode (rec_len 12), ".." to the parent
consuming block_size - 24 bytes, and the tail carrying the dirblock
checksum; unimplemented without the FILETYPE feature. -/
def DirEntryData.new_dir_entries (ino parent_ino : Nat) (ftFeature : Bool)
    (block_size : Nat) (uuid : List Nat) (ino_gen : Nat) : Except Err (List DirEntryData) :=
  if ftFeature = false then Except.error Err.panicUnimplemented
  else
    let self_entry := DirEntryData.entry2 ino 12 1 2 [46]
    let parent_entry := DirEntryData.entry2 parent_ino
      (wsub16 (wsub16 (block_size % 65536) 12) 12) 2 2 [46, 46]
    let block := self_entry.serializeBytes ++ parent_entry.serializeBytes
    let csum := crc32c 0xFFFFFFFF uuid uuid.length
    let csum := crc32c csum (le32Bytes ino) 4
    let csum := crc32c csum (le32Bytes ino_gen) 4
    Except.ok [self_entry, parent_entry,
      DirEntryData.tail 0 12 0 0xDE (crc32c csum block block.length)]

/-- Sum of the rec_len fields of an entry sequence. -/
def sumRecLen (entries : List DirEntryData) : Nat :=
  (entries.map DirEntryData.get_rec_len).sum

/-- Entry-level mutation step of Dir::add_dir_entry_and_sync (dir.rs
lines 94-129): take the ordinary entries collected by the iteration
(tail excluded) and the new entry; offset_of_last is the sum of the
collected rec_len values minus the last one - the extent_offset
bookkeeping of lines 72-79, whose wrap branch can only fire when that
sum reaches the block end and yields the same value. The source then
asserts that the last entry has room (its rec_len minus its minimal
aligned length covers the new rec_len), rewrites the last entry with
its minimal aligned length, and appends the new entry carrying the
freed remainder; returned alongside are the write offsets of the
rewritten last entry, of the new entry, and of the tail. -/
def add_dir_entry_core (entries : List DirEntryData) (new_entry : DirEntryData) :
    Except Err (List DirEntryData × Nat × Nat × Nat) :=
  match entries.getLast? with
  | none => Except.error Err.panicAssert
  | some last =>
    let offset_of_last := sumRecLen entries - last.get_rec_len
    let last_real := last.get_real_rec_len
    if last.get_rec_len < last_real + new_entry.get_rec_len then Except.error Err.panicAssert
    else
      let new' := new_entry.set_rec_len (last.get_rec_len - last_real)
      Except.ok (entries.dropLast ++ [last.set_rec_len last_real] ++ [new'],
        offset_of_last, offset_of_last + last_real,
        offset_of_last + last_real + new'.get_rec_len)

theorem sumRecLen_append (l₁ l₂ : List DirEntryData) :
    sumRecLen (l₁ ++ l₂) = sumRecLen l₁ + sumRecLen l₂ := by
  simp [sumRecLen]

theorem get_rec_len_set_rec_len (e : DirEntryData) (r : Nat) :
    (e.set_rec_len r).get_rec_len = r := by
  cases e <;> rfl

/-- C1: directory-block tiling is preserved by the add-entry protocol:
when the ordinary entries plus the 12-byte tail tile the block exactly
and the protocol succeeds, the produced sequence still tiles exactly -
the former last entry is rewritten with its minimal aligned rec_len,
the new entry lands at offset_of_last + real_rec_len with rec_len equal
to the freed remainder, and the tail offset is block_size - 12. -/
theorem add_entry_preserves_tiling (block_size : Nat) (entries : List DirEntryData)
    (new_entry : DirEntryData) (entries' : List DirEntryData)
    (offLast offNew offTail : Nat)
    (htile : sumRecLen entries + 12 = block_size)
    (hok : add_dir_entry_core entries new_entry =
      Except.ok (entries', offLast, offNew, offTail)) :
    sumRecLen entries' + 12 = block_size ∧
    (∃ last, entries.getLast? = some last ∧
      entries' = entries.dropLast ++ [last.set_rec_len last.get_real_rec_len] ++
        [new_entry.set_rec_len (last.get_rec_len - last.get_real_rec_len)] ∧
      offLast = sumRecLen entries - last.get_rec_len ∧
      offNew = offLast + last.get_real_rec_len ∧
      (entries'.getLast?).map DirEntryData.get_rec_len =
        some (last.get_rec_len - last.get_real_rec_len)) ∧
    offTail = block_size - 12 := by
  rcases List.eq_nil_or_concat entries with hnil | ⟨front, last, hsplit⟩
  · rw [hnil] at hok
    simp [add_dir_entry_core] at hok
  · rw [List.concat_eq_append] at hsplit
    subst hsplit
    simp only [add_dir_entry_core, List.getLast?_concat] at hok
    by_cases hroom : (last.get_real_rec_len + new_entry.get_rec_len ≤ last.get_rec_len)
    · rw [if_neg (by omega)] at hok
      simp only [Except.ok.injEq, Prod.mk.injEq] at hok
      obtain ⟨he, ho1, ho2, ho3⟩ := hok
      subst he ho1 ho2 ho3
      have hsum : sumRecLen (front ++ [last]) = sumRecLen front + last.get_rec_len := by
        rw [sumRecLen_append]
        simp [sumRecLen]
      have hdrop : (front ++ [last]).dropLast = front := List.dropLast_concat
      have hreal : last.get_real_rec_len ≤ last.get_rec_len := by omega
      refine ⟨?_, ⟨last, List.getLast?_concat front, ?_, rfl, rfl, ?_⟩, ?_⟩
      · simp only [sumRecLen, hdrop, List.map_append, List.sum_append, List.map_cons,
          List.map_nil, List.sum_cons, List.sum_nil, get_rec_len_set_rec_len] at htile ⊢
        omega
      · rfl
      · rw [hdrop, List.getLast?_concat]
        simp [get_rec_len_set_rec_len]
      · simp only [sumRecLen, List.map_append, List.sum_append, List.map_cons,
          List.map_nil, List.sum_cons, List.sum_nil, get_rec_len_set_rec_len] at htile ⊢
        omega
    · rw [if_pos (by omega)] at hok
      exact absurd hok (by simp)

/-- Entries of the C1 witness block (1024 bytes): "." with rec_len 12
and ".." padded to rec_len 1000, so 12 + 1000 + 12 = 1024. -/
def dotEntry : DirEntryData := DirEntryData.entry2 2 12 1 2 [46]

/-- The padded last entry of the C1 witness block. -/
def dotdotEntry : DirEntryData := DirEntryData.entry2 2 1000 2 2 [46, 46]

/-- The entry added in the C1 witness (name "newf", REG_FILE). -/
def newfEntry : DirEntryData := DirEntryData.new 4 [110, 101, 119, 102] (some 1) true

/-- Witness for C1: on the concrete tiled block the protocol rewrites
".." to rec_len 12, appends the new entry with rec_len 988 at offset
24, and puts the tail at 1012 = 1024 - 12. -/
theorem add_entry_preserves_tiling_witness :
    sumRecLen [dotEntry, dotdotEntry.set_rec_len 12, newfEntry.set_rec_len 988] + 12 = 1024 ∧
    (∃ last, [dotEntry, dotdotEntry].getLast? = some last ∧
      [dotEntry, dotdotEntry.set_rec_len 12, newfEntry.set_rec_len 988] =
        [dotEntry, dotdotEntry].dropLast ++ [last.set_rec_len last.get_real_rec_len] ++
        [newfEntry.set_rec_len (last.get_rec_len - last.get_real_rec_len)] ∧
      12 = sumRecLen [dotEntry, dotdotEntry] - last.get_rec_len ∧
      24 = 12 + last.get_real_rec_len ∧
      ([dotEntry, dotdotEntry.set_rec_len 12, newfEntry.set_rec_len 988].getLast?).map
        DirEntryData.get_rec_len = some (last.get_rec_len - last.get_real_rec_len)) ∧
    1012 = 1024 - 12 :=
  add_entry_preserves_tiling 1024 [dotEntry, dotdotEntry] newfEntry
    [dotEntry, dotdotEntry.set_rec_len 12, newfEntry.set_rec_len 988] 12 24 1012
    (by decide) (by decide)

/-- FileSystem::get_inode_pos: the group of ino is (ino - 1) divided by
inodes_per_group (a zero inodes_per_group or a group index past the BGD
vector is a panic); the byte position is the group inode table location
times the block size plus the in-group index times the inode size. -/
def FileSystem.get_inode_pos (s : FsState) (ino : Nat) : Except Err Nat :=
  if s.superBlock.inodes_per_group = 0 then Except.error Err.panicAssert
  else
    match s.bgds.get? ((ino - 1) / s.superBlock.inodes_per_group) with
    | none => Except.error Err.panicAssert
    | some g =>
      Except.ok (g.get_inode_table_loc * s.superBlock.get_block_size +
        (ino - 1) % s.superBlock.inodes_per_group * s.superBlock.get_inode_size)

/-- FileSystem::get_inode: deserialize the inode record at its
position. -/
def FileSystem.get_inode (s : FsState) (ino : Nat) : Except Err Inode :=
  match FileSystem.get_inode_pos s ino with
  | Except.error e => Except.error e
  | Except.ok pos => Except.ok (Inode.deserialize s.disk pos)

/-- The directory handle of dir.rs: an inode number and an inode
snapshot (the filesystem reference is passed explicitly). -/
structure Dir where
  ino : Nat
  inode : Inode
deriving Repr, DecidableEq

/-- Final state of a directory iteration: the ordinary entries in
order, the recorded tail (if one was reached), and the iterator
extent_idx / extent_offset cursor. -/
structure DirIterOut where
  entries : List DirEntryData
  tail_entry : Option DirEntryData
  extent_idx : Nat
  extent_offset : Nat
deriving Repr, DecidableEq

/-- The DirIter::next loop of dir.rs, run to completion: read one entry
at the cursor; a tail ends the iteration and is recorded; an ordinary
entry advances the cursor by its rec_len, wrapping to the next extent
when the offset reaches the extent byte length; a cursor past the
extents ends the iteration with no tail. The fuel argument only bounds
the loop: the source loops forever on an entry with rec_len 0, which
the model reports as the panic value when the fuel runs out. -/
def dirIterLoop (extents : List Extent) (bs : Nat) (ftF : Bool) (d : Nat → Nat) :
    Nat → Nat → Nat → List DirEntryData → Except Err DirIterOut
  | 0, _, _, _ => Except.error Err.panicAssert
  | fuel + 1, idx, off, acc =>
    match extents.get? idx with
    | none => Except.ok ⟨acc.reverse, none, idx, off⟩
    | some e =>
      match e.read_entrydata bs ftF d off with
      | Except.error err => Except.error err
      | Except.ok none => Except.ok ⟨acc.reverse, none, idx, off⟩
      | Except.ok (some (DirEntryData.tail z r z2 ft c)) =>
        Except.ok ⟨acc.reverse, some (DirEntryData.tail z r z2 ft c), idx, off⟩
      | Except.ok (some entry) =>
        if e.len * bs ≤ off + entry.get_rec_len then
          dirIterLoop extents bs ftF d fuel (idx + 1) 0 (entry :: acc)
        else dirIterLoop extents bs ftF d fuel idx (off + entry.get_rec_len) (entry :: acc)

/-- Fuel that a terminating directory iteration never exhausts: one
step per byte of the extents plus the extent wraps. -/
def dirIterFuel (extents : List Extent) (bs : Nat) : Nat :=
  extents.foldl (fun a e => a + e.len * bs) 0 + extents.length + 2

/-- Collect a whole directory iteration (Dir::iter driven to its end,
as the add-entry protocol and the lookup helpers do). -/
def Dir.collectEntries (dir : Dir) (s : FsState) : Except Err DirIterOut :=
  match dir.inode.get_extents with
  | Except.error e => Except.error e
  | Except.ok extents =>
    dirIterLoop extents s.superBlock.get_block_size
      s.superBlock.has_feature_incompat_filetype s.disk
      (dirIterFuel extents s.superBlock.get_block_size) 0 0 []

/-- Dir::is_exist: linear scan for the name (the source unwraps each
iteration item, so parse panics propagate). -/
def Dir.is_exist (dir : Dir) (s : FsState) (name : List Nat) : Except Err Bool :=
  match dir.collectEntries s with
  | Except.error e => Except.error e
  | Except.ok out => Except.ok (out.entries.any (fun e => e.get_name == name))

/-- Dir::find_entry: first entry whose name matches, else NotFound. -/
def Dir.find_entry (dir : Dir) (s : FsState) (name : List Nat) : Except Err DirEntryData :=
  match dir.collectEntries s with
  | Except.error e => Except.error e
  | Except.ok out =>
    match out.entries.find? (fun e => e.get_name == name) with
    | some e => Except.ok e
    | none => Except.error Err.notFound

/-- Dir::add_dir_entry_and_sync (dir.rs lines 41-169). Build the new
entry; collect the block entries and tail by iteration; recompute the
cursor as in lines 72-79 (the wrap-back branch); verify the recorded
tail checksum against the recomputed dirblock checksum (assert);
require a single extent of length one (asserts); require room in the
last entry (assert, the entry-level core); then write the rewritten
last entry, the new entry and the fresh tail, and for a subdirectory
bump the parent links_count, recompute the parent inode checksum and
write the parent inode back. Errors leave every write already issued in
place, exactly as the source does. -/
def Dir.add_dir_entry_and_sync (dir : Dir) (s : FsState) (ino : Nat) (name : List Nat)
    (file_type : Option Nat) : (Except Err Dir) × FsState :=
  let bs := s.superBlock.get_block_size
  let ftF := s.superBlock.has_feature_incompat_filetype
  let new_entry := DirEntryData.new ino name file_type ftF
  match dir.inode.get_extents with
  | Except.error e => (Except.error e, s)
  | Except.ok extents =>
    match dirIterLoop extents bs ftF s.disk (dirIterFuel extents bs) 0 0 [] with
    | Except.error e => (Except.error e, s)
    | Except.ok out =>
      match out.entries.getLast? with
      | none => (Except.error Err.panicAssert, s)
      | some last =>
        let recompute : Except Err (Nat × Nat) :=
          if out.extent_offset = 0 then
            if out.extent_idx = 0 then Except.error Err.panicAssert
            else
              match extents.get? (out.extent_idx - 1) with
              | none => Except.error Err.panicAssert
              | some e => Except.ok (out.extent_idx - 1, bs * e.len)
          else Except.ok (out.extent_idx, out.extent_offset)
        match recompute with
        | Except.error e => (Except.error e, s)
        | Except.ok (extent_idx, extent_offset) =>
          match out.tail_entry with
          | none => (Except.error Err.panicAssert, s)
          | some tailE =>
            if tailE.get_checksum ≠ DirEntryData.compute_dirblock_checksum out.entries bs
                s.superBlock.uuid (dir.ino % 4294967296) dir.inode.generation then
              (Except.error Err.panicAssert, s)
            else if extent_idx ≠ 0 then (Except.error Err.panicAssert, s)
            else
              match extents.get? extent_idx with
              | none => (Except.error Err.panicAssert, s)
              | some extent =>
                if extent.len ≠ 1 then (Except.error Err.panicAssert, s)
                else
                  match add_dir_entry_core out.entries new_entry with
                  | Except.error e => (Except.error e, s)
                  | Except.ok (entries', _, _, _) =>
                    let offset_of_last := extent_offset - last.get_rec_len
                    let last_real := last.get_real_rec_len
                    let lastW := last.set_rec_len last_real
                    let newW := new_entry.set_rec_len (last.get_rec_len - last_real)
                    match extent.write_entrydata bs s.disk offset_of_last lastW with
                    | Except.error e => (Except.error e, s)
                    | Except.ok d1 =>
                      match extent.write_entrydata bs d1 (offset_of_last + last_real) newW with
                      | Except.error e => (Except.error e, { s with disk := d1 })
                      | Except.ok d2 =>
                        let tailW := DirEntryData.tail 0 12 0 0xDE
                          (DirEntryData.compute_dirblock_checksum entries' bs
                            s.superBlock.uuid (dir.ino % 4294967296) dir.inode.generation)
                        match extent.write_entrydata bs d2
                            (offset_of_last + last_real + newW.get_rec_len) tailW with
                        | Except.error e => (Except.error e, { s with disk := d2 })
                        | Except.ok d3 =>
                          let s3 := { s with disk := d3 }
                          if file_type = some 2 then
                            let inode1 := { dir.inode with
                              links_count := (dir.inode.links_count + 1) % 65536 }
                            let inode2 := inode1.compute_and_set_checksum (dir.ino % 4294967296)
                              (s.superBlock.get_inode_size % 65536) s.superBlock.uuid
                            match FileSystem.get_inode_pos s3 dir.ino with
                            | Except.error e => (Except.error e, s3)
                            | Except.ok pos =>
                              (Except.ok { dir with inode := inode2 },
                               { s3 with disk := writeBytes d3 pos inode2.serializeBytes })
                          else (Except.ok dir, s3)

theorem add_dir_entry_core_no_room (entries : List DirEntryData)
    (new_entry last : DirEntryData)
    (hlast : entries.getLast? = some last)
    (hroom : last.get_rec_len < last.get_real_rec_len + new_entry.get_rec_len) :
    add_dir_entry_core entries new_entry = Except.error Err.panicAssert := by
  unfold add_dir_entry_core
  rw [hlast]
  simp [hroom]

/-- C4 amended: when the slack of the last entry (its rec_len minus its
minimal aligned length) is smaller than the new entry's rec_len, the
add-entry protocol aborts with the assert! panic - not with a
recoverable NoSpace error - and the state (in particular the directory
block) is untouched, since the assert precedes every write. -/
theorem add_entry_no_room_panics (dir : Dir) (s : FsState) (ino : Nat) (name : List Nat)
    (file_type : Option Nat) (extent : Extent) (out : DirIterOut)
    (last tailE : DirEntryData)
    (hext : dir.inode.get_extents = Except.ok [extent])
    (hiter : dirIterLoop [extent] s.superBlock.get_block_size
      s.superBlock.has_feature_incompat_filetype s.disk
      (dirIterFuel [extent] s.superBlock.get_block_size) 0 0 [] = Except.ok out)
    (hlast : out.entries.getLast? = some last)
    (hoff : out.extent_offset ≠ 0)
    (hidx : out.extent_idx = 0)
    (htail : out.tail_entry = some tailE)
    (hcsum : tailE.get_checksum = DirEntryData.compute_dirblock_checksum out.entries
      s.superBlock.get_block_size s.superBlock.uuid (dir.ino % 4294967296)
      dir.inode.generation)
    (hlen : extent.len = 1)
    (hroom : last.get_rec_len < last.get_real_rec_len +
      (DirEntryData.new ino name file_type
        s.superBlock.has_feature_incompat_filetype).get_rec_len) :
    dir.add_dir_entry_and_sync s ino name file_type = (Except.error Err.panicAssert, s) ∧
      (Except.error Err.panicAssert : Except Err Dir) ≠ Except.error Err.notEnoughSpace := by
  refine ⟨?_, by decide⟩
  have hcore := add_dir_entry_core_no_room out.entries
    (DirEntryData.new ino name file_type s.superBlock.has_feature_incompat_filetype)
    last hlast hroom
  simp only [Dir.add_dir_entry_and_sync, hext, hiter, hlast, htail, hidx, hlen,
    if_neg hoff, hcore]
  simp [hcsum, hlen]

/-- Superblock of the concrete 8-block test image: 1024-byte blocks,
one group of 8 blocks and 8 inodes, 256-byte inodes, 64-byte
descriptors, FILETYPE on, METADATA_CSUM off. -/
def sbT : SuperBlock :=
  { inodes_count := 8, blocks_count_lo := 8, free_blocks_count_lo := 3,
    free_inodes_count := 5, first_data_block := 1, log_block_size := 0,
    blocks_per_group := 8, inodes_per_group := 8, magic := 0xEF53,
    inode_size := 256, feature_compat := 0, feature_incompat := 2,
    feature_ro_compat := 0, uuid := List.replicate 16 0, desc_size := 64,
    blocks_count_hi := 0, free_blocks_count_hi := 0, want_extra_isize := 32 }

/-- Group 0 descriptor of the test image: block bitmap in block 3,
inode bitmap in block 4, inode table in block 5, 3 free blocks, 5 free
inodes, 2 used dirs, 4 unused itable entries. -/
def bgdT : BGD :=
  { block_bitmap_lo := 3, inode_bitmap_lo := 4, inode_table_lo := 5,
    free_blocks_count_lo := 3, free_inodes_count_lo := 5, used_dirs_count_lo := 2,
    flags := 0, exclude_bitmap_lo := 0, block_bitmap_csum_lo := 0,
    inode_bitmap_csum_lo := 0, itable_unused_lo := 4, checksum := 0,
    block_bitmap_hi := 0, inode_bitmap_hi := 0, inode_table_hi := 0,
    free_blocks_count_hi := 0, free_inodes_count_hi := 0, used_dirs_count_hi := 0,
    itable_unused_hi := 0, exclude_bitmap_hi := 0, block_bitmap_csum_hi := 0,
    inode_bitmap_csum_hi := 0, reserved := 0 }

/-- Root directory inode of the test image (ino 2): a directory with a
single length-1 extent at block 7. -/
def rootInodeT : Inode :=
  { Inode.default with
      mode := 0x41ED,
      links_count := 3,
      size_lo := 1024,
      flags := 0x80000,
      block := le16Bytes 0xF30A ++ le16Bytes 1 ++ le16Bytes 4 ++ le16Bytes 0 ++
        le32Bytes 0 ++ le32Bytes 0 ++ le16Bytes 1 ++ le16Bytes 0 ++ le32Bytes 7 ++
        List.replicate 36 0 }

/-- Byte content of the root directory block (block 7): ".", a padded
"..", and a tail whose checksum is the recomputed dirblock checksum. -/
def rootBlockBytes : List Nat :=
  dotEntry.serializeBytes ++ dotdotEntry.serializeBytes ++
  (DirEntryData.tail 0 12 0 0xDE (DirEntryData.compute_dirblock_checksum
    [dotEntry, dotdotEntry] 1024 (List.replicate 16 0) 2 0)).serializeBytes

/-- A second directory inode of the test image (ino 5): single extent
at block 6; its block has almost no slack in the last entry. -/
def snugDirInodeT : Inode :=
  { Inode.default with
      mode := 0x41ED,
      links_count := 2,
      size_lo := 1024,
      flags := 0x80000,
      block := le16Bytes 0xF30A ++ le16Bytes 1 ++ le16Bytes 4 ++ le16Bytes 0 ++
        le32Bytes 0 ++ le32Bytes 0 ++ le16Bytes 1 ++ le16Bytes 0 ++ le32Bytes 6 ++
        List.replicate 36 0 }

/-- Middle entry of the snug directory block, padded to 976 bytes. -/
def fillerEntry : DirEntryData := DirEntryData.entry2 5 976 1 1 [97]

/-- Last entry of the snug directory block: rec_len 24, minimal aligned
length 12, so only 12 bytes of slack. -/
def snugLastEntry : DirEntryData := DirEntryData.entry2 6 24 1 1 [98]

/-- Byte content of the snug directory block (block 6):
12 + 976 + 24 + 12 = 1024. -/
def snugBlockBytes : List Nat :=
  dotEntry.serializeBytes ++ fillerEntry.serializeBytes ++ snugLastEntry.serializeBytes ++
  (DirEntryData.tail 0 12 0 0xDE (DirEntryData.compute_dirblock_checksum
    [dotEntry, fillerEntry, snugLastEntry] 1024 (List.replicate 16 0) 5 0)).serializeBytes

/-- The test image: block bitmap byte 0b00111111 at 3072 (blocks 6 and
7 free in the map), inode bitmap byte 0b00000111 at 4096 (inodes 1-3
used), the snug directory block at 6144, the root directory block at
7168, zero elsewhere. -/
def diskT : Nat → Nat :=
  writeBytes (writeBytes (writeBytes (writeBytes (fun _ => 0)
    3072 [63]) 4096 [7]) 6144 snugBlockBytes) 7168 rootBlockBytes

/-- The mounted test state. -/
def fsT : FsState := ⟨sbT, [bgdT], diskT⟩

/-- Handle on the root directory of the test image. -/
def rootDirT : Dir := ⟨2, rootInodeT⟩

/-- Handle on the snug directory of the test image. -/
def snugDirT : Dir := ⟨5, snugDirInodeT⟩

/-- The single extent of the snug directory. -/
def snugExtent : Extent := ⟨0, 1, 0, 6⟩

/-- Iteration outcome over the snug directory block. -/
def snugIterOut : DirIterOut :=
  ⟨[dotEntry, fillerEntry, snugLastEntry],
   some (DirEntryData.tail 0 12 0 0xDE (DirEntryData.compute_dirblock_checksum
     [dotEntry, fillerEntry, snugLastEntry] 1024 (List.replicate 16 0) 5 0)),
   0, 1012⟩

/-- C4 counterexample: adding an 8-character name (rec_len 16) to the
concrete snug directory, whose last entry has 12 bytes of slack,
aborts with the assert! panic and leaves the state untouched; it does
not return the NoSpace error the claim promises. -/
theorem add_entry_no_room_counterexample :
    Dir.add_dir_entry_and_sync snugDirT fsT 7 [110, 97, 109, 101, 120, 121, 122, 119]
      (some 1) = (Except.error Err.panicAssert, fsT) ∧
    (Except.error Err.panicAssert : Except Err Dir) ≠ Except.error Err.notEnoughSpace := by
  constructor
  · rfl
  · decide

/-- Witness for the amended C4 theorem at the concrete snug directory. -/
theorem add_entry_no_room_panics_witness :
    Dir.add_dir_entry_and_sync snugDirT fsT 7 [110, 97, 109, 101, 120, 121, 122, 119]
      (some 1) = (Except.error Err.panicAssert, fsT) ∧
    (Except.error Err.panicAssert : Except Err Dir) ≠ Except.error Err.notEnoughSpace :=
  add_entry_no_room_panics snugDirT fsT 7 [110, 97, 109, 101, 120, 121, 122, 119]
    (some 1) snugExtent snugIterOut snugLastEntry
    (DirEntryData.tail 0 12 0 0xDE (DirEntryData.compute_dirblock_checksum
      [dotEntry, fillerEntry, snugLastEntry] 1024 (List.replicate 16 0) 5 0))
    (by decide) (by rfl) (by decide) (by decide) (by decide) (by rfl) (by rfl)
    (by decide) (by decide)

/-- FileSystem::alloc_contiguous_blocks (fs.rs lines 86-147): on the
chosen group, require free_blocks_count at least count (else
NotEnoughSpace, before any access); load the block bitmap
(blocks_per_group / 8 bytes at block_bitmap_loc); find a run of count
clear bits (else NotEnoughSpace, before any write); set the bits and
write the bitmap back; update the bitmap checksum, decrement the free
count, recompute the descriptor checksum; write the descriptor at
2048 + bgd_id * desc_size; return the absolute block
bgd_id * blocks_per_group + first bit. An out-of-range group index is
the Vec-indexing panic of the source. -/
def FileSystem.alloc_contiguous_blocks (s : FsState) (count : Nat) (bgd_id : Nat) :
    (Except Err Nat) × FsState :=
  match s.bgds.get? bgd_id with
  | none => (Except.error Err.panicAssert, s)
  | some bgd =>
    if bgd.get_free_blocks_count < count then (Except.error Err.notEnoughSpace, s)
    else
      let bs := s.superBlock.get_block_size
      let bbLoc := bgd.get_block_bitmap_loc
      let bm := Bitmap.deserialize s.disk (bbLoc * bs) (s.superBlock.blocks_per_group / 8)
      match bm.find_consecutive_unused_bits count with
      | none => (Except.error Err.notEnoughSpace, s)
      | some start_block =>
        let bm := bm.set_bits start_block count
        let s1 := { s with disk := bm.serialize s.disk (bbLoc * bs) }
        let bgd1 := bgd.set_block_bitmap_csum s.superBlock bm.data
        let bgd2 := bgd1.set_free_blocks_count (bgd.get_free_blocks_count - count)
        let s2 := { s1 with bgds := s1.bgds.set bgd_id bgd2 }
        match bgd2.set_checksum bgd_id s.superBlock with
        | Except.error e => (Except.error e, s2)
        | Except.ok bgd3 =>
          let s3 := { s2 with bgds := s2.bgds.set bgd_id bgd3 }
          let off := 1024 + 1024 + bgd_id * s.superBlock.get_desc_size
          let s4 := { s3 with disk := writeBytes s3.disk off bgd3.serializeBytes }
          (Except.ok (bgd_id * s.superBlock.blocks_per_group + start_block), s4)

/-- Success path of FileSystem::alloc_inode on group bgd_id (fs.rs
lines 156-216): load the inode bitmap (inodes_per_group / 8 bytes at
inode_bitmap_loc); unwrap the first clear bit (a panic when the bitmap
is full despite the free count); set it and write the bitmap back;
update the bitmap checksum, decrement the free count, bump
used_dirs_count when is_dir, decrement itable_unused (unguarded u32
arithmetic, wrapping); recompute and write the descriptor; return
group * inodes_per_group + bit + 1, after the closing group assert. -/
def alloc_inode_in_group (s : FsState) (is_dir : Bool) (bgd_id : Nat) (bgd : BGD) :
    (Except Err Nat) × FsState :=
  let bs := s.superBlock.get_block_size
  let ibLoc := bgd.get_inode_bitmap_loc
  let bm := Bitmap.deserialize s.disk (ibLoc * bs) (s.superBlock.inodes_per_group / 8)
  match bm.find_unused_bit with
  | none => (Except.error Err.panicAssert, s)
  | some local_ino =>
    let bm := bm.set_bit local_ino
    let s1 := { s with disk := bm.serialize s.disk (ibLoc * bs) }
    let bgd1 := bgd.set_inode_bitmap_csum s.superBlock bm.data
    let bgd2 := bgd1.set_free_inodes_count (bgd.get_free_inodes_count - 1)
    let bgd3 := if is_dir then bgd2.set_used_dirs_count (bgd2.get_used_dirs_count + 1)
      else bgd2
    let bgd4 := bgd3.set_itable_unused (wsub32 bgd3.get_itable_unused 1)
    let s2 := { s1 with bgds := s1.bgds.set bgd_id bgd4 }
    match bgd4.set_checksum bgd_id s.superBlock with
    | Except.error e => (Except.error e, s2)
    | Except.ok bgd5 =>
      let s3 := { s2 with bgds := s2.bgds.set bgd_id bgd5 }
      let off := 1024 + 1024 + bgd_id * s.superBlock.get_desc_size
      let s4 := { s3 with disk := writeBytes s3.disk off bgd5.serializeBytes }
      let new_ino := bgd_id * s.superBlock.inodes_per_group + local_ino + 1
      if s.superBlock.inodes_per_group ≠ 0 ∧
          (new_ino - 1) / s.superBlock.inodes_per_group = bgd_id then
        (Except.ok new_ino, s4)
      else (Except.error Err.panicAssert, s4)

/-- Group scan of FileSystem::alloc_inode: groups low to high, first
group with a nonzero free inode count wins; NotEnoughSpace when the
scan ends. The countdown argument is the number of groups left. -/
def alloc_inode_go (s : FsState) (is_dir : Bool) : Nat → Nat → (Except Err Nat) × FsState
  | _, 0 => (Except.error Err.notEnoughSpace, s)
  | bgd_id, n + 1 =>
    match s.bgds.get? bgd_id with
    | none => (Except.error Err.notEnoughSpace, s)
    | some bgd =>
      if bgd.get_free_inodes_count = 0 then alloc_inode_go s is_dir (bgd_id + 1) n
      else alloc_inode_in_group s is_dir bgd_id bgd

/-- FileSystem::alloc_inode (fs.rs lines 149-221). -/
def FileSystem.alloc_inode (s : FsState) (is_dir : Bool) : (Except Err Nat) × FsState :=
  alloc_inode_go s is_dir 0 s.bgds.length

/-- The fresh inode synthesized by create_file / create_dir before the
extent tree is installed: caller-supplied owner, mode and times, the
given links_count, osd1 = 1, blocks_lo = block size as u32 over 512,
extra_isize from the superblock, EXTENTS_FL set, all other fields the
Default zeros. -/
def mkNewInode (uid gid mode time links blocks extra : Nat) : Inode :=
  { Inode.default with
      uid := uid, gid := gid, mode := mode,
      atime := time, ctime := time, mtime := time, crtime := time,
      links_count := links, osd1 := 1,
      blocks_lo := blocks,
      extra_isize := extra,
      flags := 0x80000 }

/-- DirEntry::to_dir: read the inode of the entry (unwrap: failures are
panics) and require a directory. -/
def DirEntry.to_dir (s : FsState) (e : DirEntryData) : Except Err Dir :=
  match FileSystem.get_inode s e.get_inode with
  | Except.error err => Except.error err
  | Except.ok inode =>
    if inode.is_dir = false then Except.error Err.panicAssert
    else Except.ok ⟨e.get_inode, inode⟩

/-- Write the fresh ".", "..", tail records of a new directory block at
cumulated offsets (the create_dir write loop); on an error the writes
already issued remain. -/
def writeEntriesLoop (extent : Extent) (bs : Nat) :
    List DirEntryData → (Nat → Nat) → Nat → (Except Err Unit) × (Nat → Nat)
  | [], d, _ => (Except.ok (), d)
  | e :: rest, d, off =>
    match extent.write_entrydata bs d off e with
    | Except.error err => (Except.error err, d)
    | Except.ok d' => writeEntriesLoop extent bs rest d' (off + e.get_rec_len)

/-- Dir::create_file (dir.rs lines 358-428). The path is the already
split component list (split_path peels one component per recursion
step). All parents must exist; an existing target is AlreadyExists.
The inode is allocated with alloc_inode(true) - the source passes
is_dir = true even though it creates a regular file. One block is
allocated in the inode's group, the fresh REG inode (links_count 1)
with its single-extent tree and checksum is written, and the new name
is linked into the parent with file type REG_FILE (1). The returned
pair is the File handle content (File::new asserts is_file). -/
def Dir.create_file (dir : Dir) (s : FsState) (path : List (List Nat))
    (uid gid file_perm time : Nat) : (Except Err (Nat × Inode)) × FsState :=
  match path with
  | [] => (Except.error Err.notFound, s)
  | name :: rest =>
    if rest ≠ [] then
      match dir.find_entry s name with
      | Except.error e => (Except.error e, s)
      | Except.ok entry =>
        match DirEntry.to_dir s entry with
        | Except.error e => (Except.error e, s)
        | Except.ok child => child.create_file s rest uid gid file_perm time
    else
      match dir.is_exist s name with
      | Except.error e => (Except.error e, s)
      | Except.ok true => (Except.error Err.alreadyExists, s)
      | Except.ok false =>
        match FileSystem.alloc_inode s true with
        | (Except.error e, s1) => (Except.error e, s1)
        | (Except.ok new_ino, s1) =>
          let bs := s.superBlock.get_block_size
          let new_mode := Nat.lor (Nat.land 0x8000 0xF000) (Nat.land file_perm 0x0FFF)
          let new_inode0 := mkNewInode uid gid new_mode time 1
            (bs % 4294967296 / 512) s.superBlock.want_extra_isize
          let new_inode1 := new_inode0.set_size bs
          if s.superBlock.inodes_per_group = 0 then (Except.error Err.panicAssert, s1)
          else
            match FileSystem.alloc_contiguous_blocks s1 1
                ((new_ino - 1) / s.superBlock.inodes_per_group) with
            | (Except.error e, s2) => (Except.error e, s2)
            | (Except.ok new_block_start, s2) =>
              match new_inode1.init_extent_tree [Extent.new 0 1 new_block_start] with
              | Except.error e => (Except.error e, s2)
              | Except.ok new_inode2 =>
                let new_inode3 := new_inode2.compute_and_set_checksum
                  (new_ino % 4294967296) (s.superBlock.get_inode_size % 65536)
                  s.superBlock.uuid
                match FileSystem.get_inode_pos s2 new_ino with
                | Except.error e => (Except.error e, s2)
                | Except.ok pos =>
                  let d3 := writeBytes s2.disk pos new_inode3.serializeBytes
                  let s3 := { s2 with disk := d3 }
                  match dir.add_dir_entry_and_sync s3 (new_ino % 4294967296) name
                      (some 1) with
                  | (Except.error e, s4) => (Except.error e, s4)
                  | (Except.ok _, s4) =>
                    if new_inode3.is_file = false then (Except.error Err.panicAssert, s4)
                    else (Except.ok (new_ino, new_inode3), s4)

/-- Dir::create_dir (dir.rs lines 262-356): as create_file, with mode
DIR, links_count 2, the fresh ".", "..", tail block written into the
allocated block (FILETYPE required), and the parent link made with file
type DIR (2), which also bumps the parent links_count. -/
def Dir.create_dir (dir : Dir) (s : FsState) (path : List (List Nat))
    (uid gid file_perm time : Nat) : (Except Err Dir) × FsState :=
  match path with
  | [] => (Except.error Err.notFound, s)
  | name :: rest =>
    if rest ≠ [] then
      match dir.find_entry s name with
      | Except.error e => (Except.error e, s)
      | Except.ok entry =>
        match DirEntry.to_dir s entry with
        | Except.error e => (Except.error e, s)
        | Except.ok child => child.create_dir s rest uid gid file_perm time
    else
      match dir.is_exist s name with
      | Except.error e => (Except.error e, s)
      | Except.ok true => (Except.error Err.alreadyExists, s)
      | Except.ok false =>
        match FileSystem.alloc_inode s true with
        | (Except.error e, s1) => (Except.error e, s1)
        | (Except.ok new_ino, s1) =>
          let bs := s.superBlock.get_block_size
          let new_mode := Nat.lor (Nat.land 0x4000 0xF000) (Nat.land file_perm 0x0FFF)
          let new_inode0 := mkNewInode uid gid new_mode time 2
            (bs % 4294967296 / 512) s.superBlock.want_extra_isize
          let new_inode1 := new_inode0.set_size bs
          if s.superBlock.inodes_per_group = 0 then (Except.error Err.panicAssert, s1)
          else
            match FileSystem.alloc_contiguous_blocks s1 1
                ((new_ino - 1) / s.superBlock.inodes_per_group) with
            | (Except.error e, s2) => (Except.error e, s2)
            | (Except.ok new_block_start, s2) =>
              let new_extent := Extent.new 0 1 new_block_start
              match new_inode1.init_extent_tree [new_extent] with
              | Except.error e => (Except.error e, s2)
              | Except.ok new_inode2 =>
                let new_inode3 := new_inode2.compute_and_set_checksum
                  (new_ino % 4294967296) (s.superBlock.get_inode_size % 65536)
                  s.superBlock.uuid
                match FileSystem.get_inode_pos s2 new_ino with
                | Except.error e => (Except.error e, s2)
                | Except.ok pos =>
                  let d3 := writeBytes s2.disk pos new_inode3.serializeBytes
                  let s3 := { s2 with disk := d3 }
                  match DirEntryData.new_dir_entries (new_ino % 4294967296)
                      (dir.ino % 4294967296)
                      s.superBlock.has_feature_incompat_filetype bs
                      s.superBlock.uuid dir.inode.generation with
                  | Except.error e => (Except.error e, s3)
                  | Except.ok new_entries =>
                    match writeEntriesLoop new_extent bs new_entries s3.disk 0 with
                    | (Except.error e, d4) => (Except.error e, { s3 with disk := d4 })
                    | (Except.ok _, d4) =>
                      let s4 := { s3 with disk := d4 }
                      match dir.add_dir_entry_and_sync s4 (new_ino % 4294967296) name
                          (some 2) with
                      | (Except.error e, s5) => (Except.error e, s5)
                      | (Except.ok _, s5) => (Except.ok ⟨new_ino, new_inode3⟩, s5)

/-- Group 0 descriptor with no free block (free inodes remain). -/
def bgdFullT : BGD := { bgdT with free_blocks_count_lo := 0 }

/-- Test state whose single group has free inodes but no free block. -/
def fsFullT : FsState := ⟨sbT, [bgdFullT], diskT⟩

/-- Group 0 descriptor with no free inode. -/
def bgdNoInodesT : BGD := { bgdT with free_inodes_count_lo := 0 }

/-- Test state whose single group has no free inode. -/
def fsNoInodesT : FsState := ⟨sbT, [bgdNoInodesT], diskT⟩

/-- C2: creating a regular file increments the group's used_dirs_count,
because Dir::create_file calls alloc_inode(true): on the concrete test
image create_file succeeds and used_dirs_count goes from 2 to 3,
contradicting the claim that it stays unchanged for regular files. -/
theorem create_file_increments_used_dirs_bug :
    ((Dir.create_file rootDirT fsT [[110, 101, 119, 102]] 0 0 420 0).1).isOk = true ∧
    ((Dir.create_file rootDirT fsT [[110, 101, 119, 102]] 0 0 420
      0).2.bgds.getD 0 bgdT).get_used_dirs_count = 3 ∧
    bgdT.get_used_dirs_count = 2 := by
  refine ⟨by rfl, by rfl, by decide⟩

/-- C3 counterexample: on the concrete image with free inodes but no
free block, create_file returns NoSpace (NotEnoughSpace), yet the
failed attempt's allocation metadata stays mutated: the inode bitmap
byte on disk went from 0b00000111 to 0b00001111 and the group's free
inode count from 5 to 4 - no rollback, and the failing check does not
precede every write. -/
theorem create_file_no_space_counterexample :
    (Dir.create_file rootDirT fsFullT [[110, 101, 119, 102]] 0 0 420 0).1 =
      Except.error Err.notEnoughSpace ∧
    (Dir.create_file rootDirT fsFullT [[110, 101, 119, 102]] 0 0 420 0).2.disk 4096 = 15 ∧
    fsFullT.disk 4096 = 7 ∧
    ((Dir.create_file rootDirT fsFullT [[110, 101, 119, 102]] 0 0 420
      0).2.bgds.getD 0 bgdT).get_free_inodes_count = 4 ∧
    (fsFullT.bgds.getD 0 bgdT).get_free_inodes_count = 5 := by
  refine ⟨by rfl, by rfl, by decide, by rfl, by decide⟩

theorem BGD.set_checksum_error (g : BGD) (i : Nat) (sb : SuperBlock) (e : Err)
    (h : g.set_checksum i sb = Except.error e) : e = Err.panicAssert := by
  unfold BGD.set_checksum BGD.compute_checksum at h
  by_cases hd : sb.get_desc_size ≠ 64
  · rw [if_pos hd] at h
    simp at h
    exact h.symm
  · rw [if_neg hd] at h
    simp at h

theorem alloc_inode_in_group_no_notEnoughSpace (s : FsState) (is_dir : Bool)
    (bgd_id : Nat) (bgd : BGD) (s' : FsState)
    (h : alloc_inode_in_group s is_dir bgd_id bgd = (Except.error Err.notEnoughSpace, s')) :
    False := by
  unfold alloc_inode_in_group at h
  simp only [] at h
  cases hfu : (Bitmap.deserialize s.disk
      (bgd.get_inode_bitmap_loc * s.superBlock.get_block_size)
      (s.superBlock.inodes_per_group / 8)).find_unused_bit with
  | none =>
    rw [hfu] at h
    simp at h
  | some local_ino =>
    rw [hfu] at h
    simp only [] at h
    split at h
    · rename_i heq
      have h2 := BGD.set_checksum_error _ _ _ _ heq
      simp only [Prod.mk.injEq, Except.error.injEq] at h
      simp [h.1] at h2
    · split at h <;> simp at h

theorem alloc_inode_go_nospace_unchanged (s : FsState) (is_dir : Bool) :
    ∀ (n bgd_id : Nat) (s' : FsState),
      alloc_inode_go s is_dir bgd_id n = (Except.error Err.notEnoughSpace, s') →
      s' = s := by
  intro n
  induction n with
  | zero =>
    intro bgd_id s' h
    unfold alloc_inode_go at h
    simp only [Prod.mk.injEq] at h
    exact h.2.symm
  | succ m ih =>
    intro bgd_id s' h
    unfold alloc_inode_go at h
    cases hg : s.bgds.get? bgd_id with
    | none =>
      rw [hg] at h
      simp only [Prod.mk.injEq] at h
      exact h.2.symm
    | some bgd =>
      rw [hg] at h
      simp only [] at h
      by_cases hfree : bgd.get_free_inodes_count = 0
      · rw [if_pos hfree] at h
        exact ih (bgd_id + 1) s' h
      · rw [if_neg hfree] at h
        exact absurd h (fun hh => alloc_inode_in_group_no_notEnoughSpace _ _ _ _ _ hh)

theorem alloc_contiguous_nospace_unchanged (s : FsState) (count bgd_id : Nat)
    (s' : FsState)
    (h : FileSystem.alloc_contiguous_blocks s count bgd_id =
      (Except.error Err.notEnoughSpace, s')) : s' = s := by
  unfold FileSystem.alloc_contiguous_blocks at h
  cases hg : s.bgds.get? bgd_id with
  | none =>
    rw [hg] at h
    simp at h
  | some bgd =>
    rw [hg] at h
    simp only [] at h
    by_cases hfree : bgd.get_free_blocks_count < count
    · rw [if_pos hfree] at h
      simp only [Prod.mk.injEq] at h
      exact h.2.symm
    · rw [if_neg hfree] at h
      cases hfc : (Bitmap.deserialize s.disk
          (bgd.get_block_bitmap_loc * s.superBlock.get_block_size)
          (s.superBlock.blocks_per_group / 8)).find_consecutive_unused_bits count with
      | none =>
        rw [hfc] at h
        simp only [Prod.mk.injEq] at h
        exact h.2.symm
      | some start_block =>
        rw [hfc] at h
        simp only [] at h
        split at h
        · rename_i heq
          have h2 := BGD.set_checksum_error _ _ _ _ heq
          simp only [Prod.mk.injEq, Except.error.injEq] at h
          simp [h.1] at h2
        · simp at h

/-- C3 amended: the two allocation primitives are individually atomic
on NoSpace - when alloc_inode or alloc_contiguous_blocks returns
NotEnoughSpace the state (BGD vector and image bytes) is exactly the
input state, because each failing check precedes every write; but
create_file as a whole is not atomic: when inode allocation succeeds
and block allocation then fails, the inode-bitmap and BGD mutations
persist (no rollback), as the counterexample shows. -/
theorem alloc_nospace_failure_is_atomic :
    (∀ (s : FsState) (is_dir : Bool) (s' : FsState),
      FileSystem.alloc_inode s is_dir = (Except.error Err.notEnoughSpace, s') → s' = s) ∧
    (∀ (s : FsState) (count bgd_id : Nat) (s' : FsState),
      FileSystem.alloc_contiguous_blocks s count bgd_id =
        (Except.error Err.notEnoughSpace, s') → s' = s) :=
  ⟨fun s is_dir s' h => alloc_inode_go_nospace_unchanged s is_dir s.bgds.length 0 s' h,
   fun s count bgd_id s' h => alloc_contiguous_nospace_unchanged s count bgd_id s' h⟩

/-- Witness for the amended C3 theorem: concrete NoSpace failures of
both allocators, each leaving its state untouched. -/
theorem alloc_nospace_failure_is_atomic_witness :
    fsNoInodesT = fsNoInodesT ∧ fsFullT = fsFullT :=
  ⟨alloc_nospace_failure_is_atomic.1 fsNoInodesT true fsNoInodesT (by rfl),
   alloc_nospace_failure_is_atomic.2 fsFullT 1 0 fsFullT (by rfl)⟩

/-- The three location fields of a descriptor (the allocation setters
never change them). -/
def bgdLocs (g : BGD) : Nat × Nat × Nat :=
  (g.get_block_bitmap_loc, g.get_inode_bitmap_loc, g.get_inode_table_loc)

/-- Frame facts shared by every allocation and creation operation: the
in-memory superblock is untouched, the superblock record bytes of the
image (addresses 1024 to 2047) are untouched, and the BGD vector keeps
its length and every descriptor its bitmap and table locations. -/
structure FrameOK (s s' : FsState) : Prop where
  sb : s'.superBlock = s.superBlock
  disk : ∀ a, 1024 ≤ a → a < 2048 → s'.disk a = s.disk a
  len : s'.bgds.length = s.bgds.length
  locs : ∀ i, (s'.bgds.get? i).map bgdLocs = (s.bgds.get? i).map bgdLocs

theorem FrameOK.rfl (s : FsState) : FrameOK s s :=
  ⟨Eq.refl _, fun _ _ _ => Eq.refl _, Eq.refl _, fun _ => Eq.refl _⟩

theorem FrameOK.trans {s1 s2 s3 : FsState} (h1 : FrameOK s1 s2) (h2 : FrameOK s2 s3) :
    FrameOK s1 s3 :=
  ⟨h2.sb.trans h1.sb, fun a ha hb => (h2.disk a ha hb).trans (h1.disk a ha hb),
   h2.len.trans h1.len, fun i => (h2.locs i).trans (h1.locs i)⟩

theorem FrameOK.write (s : FsState) (p : Nat) (bytes : List Nat) (hp : 2048 ≤ p) :
    FrameOK s { s with disk := writeBytes s.disk p bytes } :=
  ⟨Eq.refl _, fun a _ hb => writeBytes_lt _ _ _ _ (by omega), Eq.refl _, fun _ => Eq.refl _⟩

theorem locs_set (l : List BGD) (i j : Nat) (g2 : BGD)
    (hg : ∀ g, l.get? i = some g → bgdLocs g2 = bgdLocs g) :
    ((l.set i g2).get? j).map bgdLocs = (l.get? j).map bgdLocs := by
  by_cases hij : i = j
  · subst hij
    rw [List.get?_set_eq]
    cases hgi : l.get? i with
    | none => rfl
    | some g => simp [hg g hgi]
  · rw [List.get?_set_ne]
    exact hij

theorem locs_set_set (l : List BGD) (i j : Nat) (g1 g2 : BGD)
    (hg : ∀ g, l.get? i = some g → bgdLocs g2 = bgdLocs g) :
    (((l.set i g1).set i g2).get? j).map bgdLocs = (l.get? j).map bgdLocs := by
  rw [List.set_set]
  exact locs_set l i j g2 hg

theorem bgdLocs_set_free_inodes_count (g : BGD) (c : Nat) :
    bgdLocs (g.set_free_inodes_count c) = bgdLocs g := rfl

theorem bgdLocs_set_free_blocks_count (g : BGD) (c : Nat) :
    bgdLocs (g.set_free_blocks_count c) = bgdLocs g := rfl

theorem bgdLocs_set_used_dirs_count (g : BGD) (c : Nat) :
    bgdLocs (g.set_used_dirs_count c) = bgdLocs g := rfl

theorem bgdLocs_set_itable_unused (g : BGD) (c : Nat) :
    bgdLocs (g.set_itable_unused c) = bgdLocs g := rfl

theorem bgdLocs_set_inode_bitmap_csum (g : BGD) (sb : SuperBlock) (bm : List Nat) :
    bgdLocs (g.set_inode_bitmap_csum sb bm) = bgdLocs g := by
  unfold BGD.set_inode_bitmap_csum
  split <;> rfl

theorem bgdLocs_set_block_bitmap_csum (g : BGD) (sb : SuperBlock) (bm : List Nat) :
    bgdLocs (g.set_block_bitmap_csum sb bm) = bgdLocs g := by
  unfold BGD.set_block_bitmap_csum
  split <;> rfl

theorem bgdLocs_set_checksum_ok (g g' : BGD) (i : Nat) (sb : SuperBlock)
    (h : g.set_checksum i sb = Except.ok g') : bgdLocs g' = bgdLocs g := by
  unfold BGD.set_checksum BGD.compute_checksum at h
  split at h
  · simp at h
  · simp only [Except.ok.injEq] at h
    rw [← h]
    rfl

theorem two_mul_le (loc bs : Nat) (hloc : 2 ≤ loc) (hbs : 1024 ≤ bs) :
    2048 ≤ loc * bs := by
  calc 2048 = 2 * 1024 := by norm_num
  _ ≤ loc * bs := Nat.mul_le_mul hloc hbs


theorem alloc_contiguous_frame (s : FsState) (count bgd_id : Nat)
    (hbs : 1024 ≤ s.superBlock.get_block_size)
    (hloc : ∀ g ∈ s.bgds, 2 ≤ g.get_block_bitmap_loc) :
    FrameOK s (FileSystem.alloc_contiguous_blocks s count bgd_id).2 := by
  unfold FileSystem.alloc_contiguous_blocks
  cases hg : s.bgds.get? bgd_id with
  | none => exact FrameOK.rfl s
  | some bgd =>
    simp only []
    by_cases hfree : bgd.get_free_blocks_count < count
    · rw [if_pos hfree]
      exact FrameOK.rfl s
    · rw [if_neg hfree]
      have hpos : 2048 ≤ bgd.get_block_bitmap_loc * s.superBlock.get_block_size :=
        two_mul_le _ _ (hloc bgd (List.get?_mem hg)) hbs
      cases hfc : (Bitmap.deserialize s.disk
          (bgd.get_block_bitmap_loc * s.superBlock.get_block_size)
          (s.superBlock.blocks_per_group / 8)).find_consecutive_unused_bits count with
      | none => exact FrameOK.rfl s
      | some start_block =>
        simp only []
        split
        · rename_i e heq
          refine ⟨rfl, fun a ha hb => ?_, by simp, fun j => ?_⟩
          · simp only [Bitmap.serialize]
            rw [writeBytes_lt]
            omega
          · simp only []
            refine locs_set _ _ _ _ (fun g hgq => ?_)
            rw [hg] at hgq
            injection hgq with h
            subst h
            rw [bgdLocs_set_free_blocks_count, bgdLocs_set_block_bitmap_csum]
        · rename_i bgd3 heq
          refine ⟨rfl, fun a ha hb => ?_, by simp, fun j => ?_⟩
          · simp only [Bitmap.serialize]
            rw [writeBytes_lt, writeBytes_lt] <;> omega
          · simp only []
            refine locs_set_set _ _ _ _ _ (fun g hgq => ?_)
            rw [hg] at hgq
            injection hgq with h
            subst h
            rw [bgdLocs_set_checksum_ok _ _ _ _ heq,
              bgdLocs_set_free_blocks_count, bgdLocs_set_block_bitmap_csum]

theorem bgdLocs_alloc_inode_setters (bgd g3 : BGD) (sb : SuperBlock) (bm : List Nat)
    (c1 c3 : Nat) (is_dir : Bool)
    (h3 : g3 = (if is_dir then
        ((bgd.set_inode_bitmap_csum sb bm).set_free_inodes_count c1).set_used_dirs_count
          (((bgd.set_inode_bitmap_csum sb bm).set_free_inodes_count c1).get_used_dirs_count + 1)
      else (bgd.set_inode_bitmap_csum sb bm).set_free_inodes_count c1)) :
    bgdLocs (g3.set_itable_unused c3) = bgdLocs bgd := by
  rw [bgdLocs_set_itable_unused, h3]
  cases is_dir with
  | false =>
    rw [if_neg (by simp), bgdLocs_set_free_inodes_count, bgdLocs_set_inode_bitmap_csum]
  | true =>
    rw [if_pos (by simp), bgdLocs_set_used_dirs_count, bgdLocs_set_free_inodes_count,
      bgdLocs_set_inode_bitmap_csum]

theorem alloc_inode_in_group_frame (s : FsState) (is_dir : Bool) (bgd_id : Nat) (bgd : BGD)
    (hbs : 1024 ≤ s.superBlock.get_block_size)
    (hgg : s.bgds.get? bgd_id = some bgd)
    (hloc : 2 ≤ bgd.get_inode_bitmap_loc) :
    FrameOK s (alloc_inode_in_group s is_dir bgd_id bgd).2 := by
  unfold alloc_inode_in_group
  simp only []
  cases hfu : (Bitmap.deserialize s.disk
      (bgd.get_inode_bitmap_loc * s.superBlock.get_block_size)
      (s.superBlock.inodes_per_group / 8)).find_unused_bit with
  | none => exact FrameOK.rfl s
  | some local_ino =>
    simp only []
    have hpos : 2048 ≤ bgd.get_inode_bitmap_loc * s.superBlock.get_block_size :=
      two_mul_le _ _ hloc hbs
    split
    · rename_i e heq
      refine ⟨rfl, fun a ha hb => ?_, by simp, fun j => ?_⟩
      · simp only [Bitmap.serialize]
        rw [writeBytes_lt]
        omega
      · simp only []
        refine locs_set _ _ _ _ (fun g hgq => ?_)
        rw [hgg] at hgq
        injection hgq with h
        subst h
        exact bgdLocs_alloc_inode_setters _ _ _ _ _ _ is_dir rfl
    · rename_i bgd5 heq
      split
      all_goals
        refine ⟨rfl, fun a ha hb => ?_, by simp, fun j => ?_⟩
        · simp only [Bitmap.serialize]
          rw [writeBytes_lt, writeBytes_lt] <;> omega
        · simp only []
          refine locs_set_set _ _ _ _ _ (fun g hgq => ?_)
          rw [hgg] at hgq
          injection hgq with h
          subst h
          rw [bgdLocs_set_checksum_ok _ _ _ _ heq]
          exact bgdLocs_alloc_inode_setters _ _ _ _ _ _ is_dir rfl

theorem alloc_inode_go_frame (s : FsState) (is_dir : Bool) (bgd_id n : Nat)
    (hbs : 1024 ≤ s.superBlock.get_block_size)
    (hloc : ∀ g ∈ s.bgds, 2 ≤ g.get_inode_bitmap_loc) :
    FrameOK s (alloc_inode_go s is_dir bgd_id n).2 := by
  induction n generalizing bgd_id with
  | zero => exact FrameOK.rfl s
  | succ n ih =>
    unfold alloc_inode_go
    cases hg : s.bgds.get? bgd_id with
    | none => exact FrameOK.rfl s
    | some bgd =>
      simp only []
      by_cases hz : bgd.get_free_inodes_count = 0
      · rw [if_pos hz]
        exact ih (bgd_id + 1)
      · rw [if_neg hz]
        exact alloc_inode_in_group_frame s is_dir bgd_id bgd hbs hg
          (hloc bgd (List.get?_mem hg))

theorem alloc_inode_frame (s : FsState) (is_dir : Bool)
    (hbs : 1024 ≤ s.superBlock.get_block_size)
    (hloc : ∀ g ∈ s.bgds, 2 ≤ g.get_inode_bitmap_loc) :
    FrameOK s (FileSystem.alloc_inode s is_dir).2 :=
  alloc_inode_go_frame s is_dir 0 s.bgds.length hbs hloc

theorem write_entrydata_ok_shape (e : Extent) (bs : Nat) (d : Nat → Nat) (off : Nat)
    (data : DirEntryData) (d' : Nat → Nat)
    (h : e.write_entrydata bs d off data = Except.ok d') :
    d' = writeBytes d (e.get_block_loc * bs + off) data.serializeBytes := by
  unfold Extent.write_entrydata at h
  split at h
  · split at h
    · simp at h
    · simp only [Except.ok.injEq] at h
      exact h.symm
  · simp only [Except.ok.injEq] at h
    exact h.symm

theorem get_inode_pos_ge (s : FsState) (ino pos : Nat)
    (hbs : 1024 ≤ s.superBlock.get_block_size)
    (hit : ∀ g ∈ s.bgds, 2 ≤ g.get_inode_table_loc)
    (h : FileSystem.get_inode_pos s ino = Except.ok pos) : 2048 ≤ pos := by
  unfold FileSystem.get_inode_pos at h
  split at h
  · simp at h
  · split at h
    · simp at h
    · rename_i g hgq
      simp only [Except.ok.injEq] at h
      subst h
      have h2 := two_mul_le _ _ (hit g (List.get?_mem hgq)) hbs
      omega

theorem add_dir_entry_frame (dir : Dir) (s : FsState) (ino : Nat) (name : List Nat)
    (ft : Option Nat)
    (hbs : 1024 ≤ s.superBlock.get_block_size)
    (hext2 : ∀ extents, dir.inode.get_extents = Except.ok extents →
      ∀ e ∈ extents, 2 ≤ e.get_block_loc)
    (hit : ∀ g ∈ s.bgds, 2 ≤ g.get_inode_table_loc) :
    FrameOK s (Dir.add_dir_entry_and_sync dir s ino name ft).2 := by
  unfold Dir.add_dir_entry_and_sync
  simp only []
  split
  · exact FrameOK.rfl s
  rename_i extents hget
  split
  · exact FrameOK.rfl s
  rename_i out hiter
  split
  · exact FrameOK.rfl s
  rename_i last hlast
  split
  · exact FrameOK.rfl s
  rename_i extent_idx extent_offset hrec
  split
  · exact FrameOK.rfl s
  rename_i tailE htail
  split
  · exact FrameOK.rfl s
  split
  · exact FrameOK.rfl s
  split
  · exact FrameOK.rfl s
  rename_i extent heqext
  split
  · exact FrameOK.rfl s
  split
  · exact FrameOK.rfl s
  rename_i entries' o1 o2 o3 hcore
  have hp1 : 2048 ≤ extent.get_block_loc * s.superBlock.get_block_size :=
    two_mul_le _ _ (hext2 extents hget extent (List.get?_mem heqext)) hbs
  split
  · exact FrameOK.rfl s
  rename_i d1 hd1
  have hd1' : ∀ a, a < 2048 → d1 a = s.disk a := by
    intro a ha
    rw [write_entrydata_ok_shape _ _ _ _ _ _ hd1, writeBytes_lt]
    omega
  split
  · refine ⟨rfl, fun a ha hb => hd1' a hb, rfl, fun j => rfl⟩
  rename_i d2 hd2
  have hd2' : ∀ a, a < 2048 → d2 a = s.disk a := by
    intro a ha
    rw [write_entrydata_ok_shape _ _ _ _ _ _ hd2, writeBytes_lt]
    · exact hd1' a ha
    · omega
  split
  · refine ⟨rfl, fun a ha hb => hd2' a hb, rfl, fun j => rfl⟩
  rename_i d3 hd3
  have hd3' : ∀ a, a < 2048 → d3 a = s.disk a := by
    intro a ha
    rw [write_entrydata_ok_shape _ _ _ _ _ _ hd3, writeBytes_lt]
    · exact hd2' a ha
    · omega
  split
  · split
    · refine ⟨rfl, fun a ha hb => hd3' a hb, rfl, fun j => rfl⟩
    · rename_i pos hpos
      have hge := get_inode_pos_ge _ _ _ hbs hit hpos
      refine ⟨rfl, fun a ha hb => ?_, rfl, fun j => rfl⟩
      show writeBytes d3 pos _ a = s.disk a
      rw [writeBytes_lt]
      · exact hd3' a hb
      · omega
  · refine ⟨rfl, fun a ha hb => hd3' a hb, rfl, fun j => rfl⟩

theorem extent_new_block_loc (b l st : Nat) (h : st < 2 ^ 48) :
    (Extent.new b l st).get_block_loc = st := by
  unfold Extent.new Extent.get_block_loc combine_u64
  simp only []
  have h1 : st / 4294967296 < 65536 := by omega
  rw [Nat.mod_eq_of_lt h1]
  omega

theorem extent_new_len (b l st : Nat) : (Extent.new b l st).len = l := rfl

theorem bgd_serializeBytes_length (g : BGD) : g.serializeBytes.length = 64 := by
  simp [BGD.serializeBytes, le16Bytes, le32Bytes]

theorem set_checksum_ok_desc (g g' : BGD) (i : Nat) (sb : SuperBlock)
    (h : g.set_checksum i sb = Except.ok g') : sb.get_desc_size = 64 := by
  unfold BGD.set_checksum BGD.compute_checksum at h
  split at h
  · simp at h
  · rename_i csum hif
    split at hif
    · simp at hif
    · rename_i hd
      simpa using hd

theorem bitmap_deserialize_length (d : Nat → Nat) (pos n : Nat) :
    (Bitmap.deserialize d pos n).data.length = n := by
  simp [Bitmap.deserialize]

theorem bitmap_set_bit_length (bm : Bitmap) (bit : Nat) :
    (bm.set_bit bit).data.length = bm.data.length := by
  simp [Bitmap.set_bit]

theorem bitmap_deserialize_getD0 (d : Nat → Nat) (pos n : Nat) (hn : 1 ≤ n) :
    (Bitmap.deserialize d pos n).data.getD 0 0 = rb d pos := by
  cases n with
  | zero => omega
  | succ m =>
    unfold Bitmap.deserialize
    rw [List.range_succ_eq_map]
    simp

theorem fcubBits_inr_bounds (l : List Bool) (idx c k r : Nat)
    (hk : 1 ≤ k) (hc : c ≤ idx) (hidx : idx + l.length ≤ 2 ^ 64)
    (h : fcubBits l idx c k = Sum.inr r) :
    idx - c ≤ r ∧ r + k ≤ idx + l.length := by
  induction l generalizing idx c with
  | nil => simp [fcubBits] at h
  | cons bit rest ih =>
    cases bit with
    | false =>
      rw [show fcubBits (false :: rest) idx c k =
          (if c + 1 = k then Sum.inr (retWrap idx k)
           else fcubBits rest (idx + 1) (c + 1) k) from rfl] at h
      by_cases hck : c + 1 = k
      · rw [if_pos hck] at h
        injection h with h
        subst h
        rw [retWrap_eq idx k hk (by omega) (by simp at hidx; omega)]
        simp at hidx ⊢
        omega
      · rw [if_neg hck] at h
        have := ih (idx + 1) (c + 1) (by omega) (by simp at hidx; omega) h
        simp at hidx ⊢
        omega
    | true =>
      rw [show fcubBits (true :: rest) idx c k =
          fcubBits rest (idx + 1) 0 k from rfl] at h
      have := ih (idx + 1) 0 (by omega) (by simp at hidx; omega) h
      simp at hidx ⊢
      omega

theorem fcubBytes_bounds (data : List Nat) (byteIdx c k r : Nat)
    (hk : 1 ≤ k) (hc : c ≤ byteIdx * 8) (hidx : byteIdx * 8 + 8 * data.length ≤ 2 ^ 64)
    (h : fcubBytes data byteIdx c k = some r) :
    byteIdx * 8 - c ≤ r ∧ r + k ≤ byteIdx * 8 + 8 * data.length := by
  rw [fcubBytes_eq_fcubBits] at h
  cases hfb : fcubBits (bitsOfBytes data) (byteIdx * 8) c k with
  | inl c' => rw [hfb] at h; simp at h
  | inr r' =>
    rw [hfb] at h
    simp only [Option.some.injEq] at h
    subst h
    have := fcubBits_inr_bounds (bitsOfBytes data) (byteIdx * 8) c k r' hk hc
      (by rw [bitsOfBytes_length]; omega) hfb
    rw [bitsOfBytes_length] at this
    omega

theorem fcub_head255_bounds (bm : Bitmap) (k r : Nat) (hk : 1 ≤ k)
    (h255 : bm.data.getD 0 0 = 255) (hne : bm.data ≠ [])
    (hsize : 8 * bm.data.length ≤ 2 ^ 64)
    (h : bm.find_consecutive_unused_bits k = some r) :
    8 ≤ r ∧ r + k ≤ 8 * bm.data.length := by
  unfold Bitmap.find_consecutive_unused_bits at h
  cases hd : bm.data with
  | nil => exact absurd hd hne
  | cons b rest =>
    rw [hd] at h h255 hsize
    simp only [List.getD, List.get?, Option.getD] at h255
    rw [show b = 255 from h255] at h
    rw [show fcubBytes (255 :: rest) 0 0 k = fcubBytes rest 1 0 k from by
      simp [fcubBytes]] at h
    simp only [List.length_cons] at hsize
    have := fcubBytes_bounds rest 1 0 k r hk (by omega) (by omega) h
    simp only [List.length_cons]
    omega

theorem FrameOK.locs_mem {s s' : FsState} (hf : FrameOK s s') {g' : BGD}
    (hmem : g' ∈ s'.bgds) : ∃ g ∈ s.bgds, bgdLocs g = bgdLocs g' := by
  obtain ⟨j, hj⟩ := List.get?_of_mem hmem
  have hl := hf.locs j
  rw [hj] at hl
  cases hq : s.bgds.get? j with
  | none =>
    rw [hq] at hl
    simp at hl
  | some g =>
    rw [hq] at hl
    simp only [Option.map] at hl
    injection hl with h
    exact ⟨g, List.get?_mem hq, h.symm⟩

theorem bgdLocs_bb {g g' : BGD} (h : bgdLocs g = bgdLocs g') :
    g.get_block_bitmap_loc = g'.get_block_bitmap_loc :=
  congrArg (fun t => t.1) h

theorem bgdLocs_ib {g g' : BGD} (h : bgdLocs g = bgdLocs g') :
    g.get_inode_bitmap_loc = g'.get_inode_bitmap_loc :=
  congrArg (fun t => t.2.1) h

theorem bgdLocs_it {g g' : BGD} (h : bgdLocs g = bgdLocs g') :
    g.get_inode_table_loc = g'.get_inode_table_loc :=
  congrArg (fun t => t.2.2) h

/-- Shape of the state after a successful in-group inode allocation:
the ok path requires desc_size 64 and the closing group assert, and the
disk mutation is exactly the inode-bitmap write followed by the
64-byte descriptor write. -/
theorem alloc_inode_in_group_ok_shape (s : FsState) (is_dir : Bool) (bgd_id : Nat)
    (bgd : BGD) (new_ino : Nat) (s' : FsState)
    (h : alloc_inode_in_group s is_dir bgd_id bgd = (Except.ok new_ino, s')) :
    s.superBlock.get_desc_size = 64 ∧ s.superBlock.inodes_per_group ≠ 0 ∧
    (new_ino - 1) / s.superBlock.inodes_per_group = bgd_id ∧
    ∃ bm gb, bm.length = s.superBlock.inodes_per_group / 8 ∧ gb.length = 64 ∧
      s'.disk = writeBytes (writeBytes s.disk
        (bgd.get_inode_bitmap_loc * s.superBlock.get_block_size) bm)
        (1024 + 1024 + bgd_id * 64) gb := by
  unfold alloc_inode_in_group at h
  simp only [] at h
  split at h
  · simp at h
  rename_i local_ino hfu
  split at h
  · simp at h
  rename_i bgd5 heq
  have hdesc := set_checksum_ok_desc _ _ _ _ heq
  split at h
  · rename_i hcond
    simp only [Prod.mk.injEq, Except.ok.injEq] at h
    obtain ⟨hino, hs'⟩ := h
    subst hs'
    refine ⟨hdesc, hcond.1, ?_,
      ((Bitmap.deserialize s.disk
        (bgd.get_inode_bitmap_loc * s.superBlock.get_block_size)
        (s.superBlock.inodes_per_group / 8)).set_bit local_ino).data,
      bgd5.serializeBytes, ?_, bgd_serializeBytes_length _, ?_⟩
    · rw [← hino]
      exact hcond.2
    · rw [bitmap_set_bit_length, bitmap_deserialize_length]
    · show writeBytes _ _ _ = _
      rw [hdesc]
      rfl
  · simp at h

/-- Shape of a successful whole-filesystem inode allocation: some
scanned group holds the descriptor, the group index is recovered from
the returned inode number, and the state differs only in the
inode-bitmap and descriptor writes of that group. -/
theorem alloc_inode_go_ok_shape (s : FsState) (is_dir : Bool) (bgd_id n : Nat)
    (new_ino : Nat) (s' : FsState)
    (h : alloc_inode_go s is_dir bgd_id n = (Except.ok new_ino, s')) :
    s.superBlock.get_desc_size = 64 ∧ s.superBlock.inodes_per_group ≠ 0 ∧
    ∃ bgd, s.bgds.get? ((new_ino - 1) / s.superBlock.inodes_per_group) = some bgd ∧
    ∃ bm gb, bm.length = s.superBlock.inodes_per_group / 8 ∧ gb.length = 64 ∧
      s'.disk = writeBytes (writeBytes s.disk
        (bgd.get_inode_bitmap_loc * s.superBlock.get_block_size) bm)
        (1024 + 1024 + (new_ino - 1) / s.superBlock.inodes_per_group * 64) gb := by
  induction n generalizing bgd_id with
  | zero =>
    unfold alloc_inode_go at h
    simp at h
  | succ n ih =>
    unfold alloc_inode_go at h
    split at h
    · simp at h
    rename_i bgd hg
    split at h
    · exact ih (bgd_id + 1) h
    · have hs := alloc_inode_in_group_ok_shape s is_dir bgd_id bgd new_ino s' h
      obtain ⟨hdesc, hipg, hgid, bm, gb, hbm, hgb, hdisk⟩ := hs
      exact ⟨hdesc, hipg, bgd, by rw [hgid]; exact hg, bm, gb, hbm, hgb,
        by rw [hgid]; exact hdisk⟩

theorem alloc_inode_ok_shape (s : FsState) (is_dir : Bool) (new_ino : Nat) (s' : FsState)
    (h : FileSystem.alloc_inode s is_dir = (Except.ok new_ino, s')) :
    s.superBlock.get_desc_size = 64 ∧ s.superBlock.inodes_per_group ≠ 0 ∧
    ∃ bgd, s.bgds.get? ((new_ino - 1) / s.superBlock.inodes_per_group) = some bgd ∧
    ∃ bm gb, bm.length = s.superBlock.inodes_per_group / 8 ∧ gb.length = 64 ∧
      s'.disk = writeBytes (writeBytes s.disk
        (bgd.get_inode_bitmap_loc * s.superBlock.get_block_size) bm)
        (1024 + 1024 + (new_ino - 1) / s.superBlock.inodes_per_group * 64) gb :=
  alloc_inode_go_ok_shape s is_dir 0 s.bgds.length new_ino s' h

/-- Shape of a successful contiguous-block allocation: the returned
block number is group * blocks_per_group + the index found in the
group's block bitmap. -/
theorem alloc_contiguous_ok_start (s : FsState) (count gid nbs : Nat) (s' : FsState)
    (h : FileSystem.alloc_contiguous_blocks s count gid = (Except.ok nbs, s')) :
    ∃ bgd start, s.bgds.get? gid = some bgd ∧
      (Bitmap.deserialize s.disk
        (bgd.get_block_bitmap_loc * s.superBlock.get_block_size)
        (s.superBlock.blocks_per_group / 8)).find_consecutive_unused_bits count =
        some start ∧
      nbs = gid * s.superBlock.blocks_per_group + start := by
  unfold FileSystem.alloc_contiguous_blocks at h
  split at h
  · simp at h
  rename_i bgd hg
  simp only [] at h
  split at h
  · simp at h
  split at h
  · simp at h
  rename_i start hfc
  split at h
  · simp at h
  · simp only [Prod.mk.injEq, Except.ok.injEq] at h
    exact ⟨bgd, start, hg, hfc, h.1.symm⟩

theorem get?_some_lt {α : Type _} (l : List α) (n : Nat) (a : α)
    (h : l.get? n = some a) : n < l.length := by
  rcases Nat.lt_or_ge n l.length with h1 | h1
  · exact h1
  · rw [List.get?_eq_none.2 h1] at h
    cases h

/-- Every extent parsed from the inode points at physical block 2 or
higher (the image area past the 1024-byte padding and the superblock). -/
def extentsLocOK (ino : Inode) : Bool :=
  match ino.get_extents with
  | Except.ok extents => extents.all (fun e => 2 ≤ e.get_block_loc)
  | Except.error _ => true

theorem extentsLocOK_spec (ino : Inode) (h : extentsLocOK ino = true) :
    ∀ extents, ino.get_extents = Except.ok extents →
      ∀ e ∈ extents, 2 ≤ e.get_block_loc := by
  intro extents hex e hmem
  unfold extentsLocOK at h
  rw [hex] at h
  simp only [] at h
  simpa using List.all_eq_true.1 h e hmem

/-- Every inode-table slot of the filesystem parses (if it parses at
all) to extents pointing at block 2 or higher. -/
def AllInodesOK (s : FsState) : Bool :=
  (List.range s.bgds.length).all (fun gid =>
    (List.range s.superBlock.inodes_per_group).all (fun slot =>
      match s.bgds.get? gid with
      | none => true
      | some g =>
        extentsLocOK (Inode.deserialize s.disk
          (g.get_inode_table_loc * s.superBlock.get_block_size +
           slot * s.superBlock.get_inode_size))))

theorem AllInodesOK_spec (s : FsState) (h : AllInodesOK s = true) :
    ∀ ino pos, FileSystem.get_inode_pos s ino = Except.ok pos →
      ∀ extents, (Inode.deserialize s.disk pos).get_extents = Except.ok extents →
      ∀ e ∈ extents, 2 ≤ e.get_block_loc := by
  intro ino pos hpos extents hex e hmem
  unfold FileSystem.get_inode_pos at hpos
  split at hpos
  · simp at hpos
  rename_i hipg
  split at hpos
  · simp at hpos
  rename_i g hg
  simp only [Except.ok.injEq] at hpos
  subst hpos
  unfold AllInodesOK at h
  have h1 := List.all_eq_true.1 h ((ino - 1) / s.superBlock.inodes_per_group)
    (List.mem_range.2 (get?_some_lt _ _ _ hg))
  simp only [] at h1
  have h2 := List.all_eq_true.1 h1 ((ino - 1) % s.superBlock.inodes_per_group)
    (List.mem_range.2 (Nat.mod_lt _ (Nat.pos_of_ne_zero hipg)))
  simp only [] at h2
  rw [hg] at h2
  simp only [] at h2
  exact extentsLocOK_spec _ h2 extents hex e hmem

theorem to_dir_inode_shape (s : FsState) (e : DirEntryData) (child : Dir)
    (h : DirEntry.to_dir s e = Except.ok child) :
    ∃ pos, FileSystem.get_inode_pos s e.get_inode = Except.ok pos ∧
      child.inode = Inode.deserialize s.disk pos := by
  unfold DirEntry.to_dir at h
  split at h
  · simp at h
  rename_i inode hino
  split at h
  · simp at h
  simp only [Except.ok.injEq] at h
  unfold FileSystem.get_inode at hino
  split at hino
  · simp at hino
  rename_i pos hpos
  simp only [Except.ok.injEq] at hino
  exact ⟨pos, hpos, by rw [← h]; exact hino.symm⟩

/-- A successful inode allocation does not touch the first byte of the
block bitmap of the group it allocated in: the inode-bitmap write stays
inside that group's inode-bitmap block and the descriptor write stays
inside the descriptor table below block 3. -/
theorem alloc_inode_preserves_bb_byte (s s' : FsState) (is_dir : Bool) (new_ino : Nat)
    (h : FileSystem.alloc_inode s is_dir = (Except.ok new_ino, s'))
    (hbs : 1024 ≤ s.superBlock.get_block_size)
    (hipg8 : s.superBlock.inodes_per_group / 8 ≤ s.superBlock.get_block_size)
    (htbl : 2048 + s.bgds.length * 64 ≤ 3 * s.superBlock.get_block_size)
    (hg3 : ∀ g ∈ s.bgds, 3 ≤ g.get_block_bitmap_loc)
    (hneq : ∀ g ∈ s.bgds, g.get_block_bitmap_loc ≠ g.get_inode_bitmap_loc) :
    ∀ bgd, s.bgds.get? ((new_ino - 1) / s.superBlock.inodes_per_group) = some bgd →
      rb s'.disk (bgd.get_block_bitmap_loc * s.superBlock.get_block_size) =
      rb s.disk (bgd.get_block_bitmap_loc * s.superBlock.get_block_size) := by
  intro bgd hbgd
  obtain ⟨hdesc, hipg, bgd0, hbgd0, bm, gb, hbm, hgb, hdisk⟩ := alloc_inode_ok_shape s is_dir new_ino s' h
  rw [hbgd] at hbgd0
  injection hbgd0 with he
  subst he
  have hmem := List.get?_mem hbgd
  have hbb3 := hg3 bgd hmem
  have hne := hneq bgd hmem
  have hlen := get?_some_lt _ _ _ hbgd
  have h3bs : 3 * s.superBlock.get_block_size ≤
      bgd.get_block_bitmap_loc * s.superBlock.get_block_size :=
    Nat.mul_le_mul_right _ hbb3
  unfold rb
  rw [hdisk]
  rcases Nat.lt_or_ge bgd.get_block_bitmap_loc bgd.get_inode_bitmap_loc with hlt | hge2
  · have hmul : (bgd.get_block_bitmap_loc + 1) * s.superBlock.get_block_size ≤
        bgd.get_inode_bitmap_loc * s.superBlock.get_block_size :=
      Nat.mul_le_mul_right _ hlt
    rw [Nat.succ_mul] at hmul
    rw [writeBytes_ge, writeBytes_lt] <;> omega
  · have hgt : bgd.get_inode_bitmap_loc < bgd.get_block_bitmap_loc :=
      lt_of_le_of_ne hge2 (fun e => hne e.symm)
    have hmul : (bgd.get_inode_bitmap_loc + 1) * s.superBlock.get_block_size ≤
        bgd.get_block_bitmap_loc * s.superBlock.get_block_size :=
      Nat.mul_le_mul_right _ hgt
    rw [Nat.succ_mul] at hmul
    rw [writeBytes_ge, writeBytes_ge] <;> omega

/-- The create_dir block-initialization loop writes only inside the
target extent's blocks. -/
theorem writeEntriesLoop_preserves (extent : Extent) (bs : Nat) (l : List DirEntryData)
    (d : Nat → Nat) (off : Nat) (hpos : 2048 ≤ extent.get_block_loc * bs) :
    ∀ a, a < 2048 → (writeEntriesLoop extent bs l d off).2 a = d a := by
  induction l generalizing d off with
  | nil => intro a ha; rfl
  | cons e rest ih =>
    intro a ha
    unfold writeEntriesLoop
    split
    · rfl
    · rename_i d' heq
      show (writeEntriesLoop extent bs rest d' (off + e.get_rec_len)).2 a = d a
      rw [ih d' (off + e.get_rec_len) a ha,
        write_entrydata_ok_shape _ _ _ _ _ _ heq, writeBytes_lt]
      omega

theorem write_then_add_frame (dir : Dir) (s : FsState) (pos : Nat) (bytes : List Nat)
    (ino : Nat) (name : List Nat) (ft : Option Nat)
    (hpos : 2048 ≤ pos)
    (hbs : 1024 ≤ s.superBlock.get_block_size)
    (hdx : ∀ extents, dir.inode.get_extents = Except.ok extents →
      ∀ e ∈ extents, 2 ≤ e.get_block_loc)
    (hit : ∀ g ∈ s.bgds, 2 ≤ g.get_inode_table_loc) :
    FrameOK s (Dir.add_dir_entry_and_sync dir
      { s with disk := writeBytes s.disk pos bytes } ino name ft).2 := by
  have hw : FrameOK s { s with disk := writeBytes s.disk pos bytes } :=
    FrameOK.write s pos bytes hpos
  refine FrameOK.trans hw (add_dir_entry_frame dir _ ino name ft ?_ hdx ?_)
  · exact hbs
  · intro g hm
    exact hit g hm

/-- Dir::create_file only mutates the allocated group's metadata, the
fresh inode slot and the parent directory block: the superblock record
(in memory and its image bytes) and every descriptor's locations
survive. -/
theorem create_file_frame (path : List (List Nat)) (dir : Dir) (s : FsState)
    (uid gid perm time : Nat)
    (hbs : 1024 ≤ s.superBlock.get_block_size)
    (hlocs : ∀ g ∈ s.bgds, 2 ≤ g.get_block_bitmap_loc ∧ 2 ≤ g.get_inode_bitmap_loc ∧
      2 ≤ g.get_inode_table_loc)
    (hai : AllInodesOK s = true)
    (hdx : ∀ extents, dir.inode.get_extents = Except.ok extents →
      ∀ e ∈ extents, 2 ≤ e.get_block_loc) :
    FrameOK s (Dir.create_file dir s path uid gid perm time).2 := by
  induction path generalizing dir with
  | nil => exact FrameOK.rfl s
  | cons name rest ih =>
    unfold Dir.create_file
    simp only []
    split
    · split
      · exact FrameOK.rfl s
      rename_i entry hfind
      split
      · exact FrameOK.rfl s
      rename_i child htodir
      obtain ⟨pos, hpos, hchild⟩ := to_dir_inode_shape s entry child htodir
      refine ih child ?_
      intro extents hex e hmem
      rw [hchild] at hex
      exact AllInodesOK_spec s hai entry.get_inode pos hpos extents hex e hmem
    · split
      · exact FrameOK.rfl s
      · exact FrameOK.rfl s
      split
      · rename_i e s1 heq1
        have hf := alloc_inode_frame s true hbs (fun g hm => (hlocs g hm).2.1)
        rwa [heq1] at hf
      rename_i new_ino s1 heq1
      have hf1 : FrameOK s s1 := by
        have hf := alloc_inode_frame s true hbs (fun g hm => (hlocs g hm).2.1)
        rwa [heq1] at hf
      have hbs1 : 1024 ≤ s1.superBlock.get_block_size := by rw [hf1.sb]; exact hbs
      have hlocs1 : ∀ g ∈ s1.bgds, 2 ≤ g.get_block_bitmap_loc ∧
          2 ≤ g.get_inode_bitmap_loc ∧ 2 ≤ g.get_inode_table_loc := by
        intro g hm
        obtain ⟨g0, hm0, he⟩ := hf1.locs_mem hm
        obtain ⟨hb0, hi0, ht0⟩ := hlocs g0 hm0
        exact ⟨by rw [← bgdLocs_bb he]; exact hb0, by rw [← bgdLocs_ib he]; exact hi0,
          by rw [← bgdLocs_it he]; exact ht0⟩
      split
      · exact hf1
      split
      · rename_i e s2 heq2
        have hf := alloc_contiguous_frame s1 1
          ((new_ino - 1) / s.superBlock.inodes_per_group) hbs1
          (fun g hm => (hlocs1 g hm).1)
        rw [heq2] at hf
        exact FrameOK.trans hf1 hf
      rename_i nbs s2 heq2
      have hf2 : FrameOK s s2 := by
        have hf := alloc_contiguous_frame s1 1
          ((new_ino - 1) / s.superBlock.inodes_per_group) hbs1
          (fun g hm => (hlocs1 g hm).1)
        rw [heq2] at hf
        exact FrameOK.trans hf1 hf
      have hbs2 : 1024 ≤ s2.superBlock.get_block_size := by rw [hf2.sb]; exact hbs
      have hlocs2 : ∀ g ∈ s2.bgds, 2 ≤ g.get_block_bitmap_loc ∧
          2 ≤ g.get_inode_bitmap_loc ∧ 2 ≤ g.get_inode_table_loc := by
        intro g hm
        obtain ⟨g0, hm0, he⟩ := hf2.locs_mem hm
        obtain ⟨hb0, hi0, ht0⟩ := hlocs g0 hm0
        exact ⟨by rw [← bgdLocs_bb he]; exact hb0, by rw [← bgdLocs_ib he]; exact hi0,
          by rw [← bgdLocs_it he]; exact ht0⟩
      split
      · exact hf2
      rename_i new_inode2 heq3
      split
      · exact hf2
      rename_i pos hposok
      have hge : 2048 ≤ pos := get_inode_pos_ge s2 new_ino pos hbs2
        (fun g hm => (hlocs2 g hm).2.2) hposok
      have hfadd := write_then_add_frame dir s2 pos
        ((new_inode2.compute_and_set_checksum (new_ino % 4294967296)
          (s.superBlock.get_inode_size % 65536) s.superBlock.uuid).serializeBytes)
        (new_ino % 4294967296) name (some 1) hge hbs2 hdx
        (fun g hm => (hlocs2 g hm).2.2)
      split
      · rename_i e s4 heq4
        rw [heq4] at hfadd
        exact FrameOK.trans hf2 hfadd
      rename_i r s4 heq4
      rw [heq4] at hfadd
      have hf4 := FrameOK.trans hf2 hfadd
      split
      · exact hf4
      · exact hf4

/-- Dir::create_dir only mutates the allocated group's metadata, the
fresh inode slot, the freshly allocated directory block and the parent
directory block: the superblock record (in memory and its image bytes)
and every descriptor's locations survive. The extra layout hypotheses
bound the descriptor table and force the allocated block past block 2:
the first byte of each group's block bitmap is 0xFF, so the block found
for the new directory has index at least 8 in its group. -/
theorem create_dir_frame (path : List (List Nat)) (dir : Dir) (s : FsState)
    (uid gid perm time : Nat)
    (hbs : 1024 ≤ s.superBlock.get_block_size)
    (hlocs : ∀ g ∈ s.bgds, 2 ≤ g.get_block_bitmap_loc ∧ 2 ≤ g.get_inode_bitmap_loc ∧
      2 ≤ g.get_inode_table_loc)
    (hai : AllInodesOK s = true)
    (hdx : ∀ extents, dir.inode.get_extents = Except.ok extents →
      ∀ e ∈ extents, 2 ≤ e.get_block_loc)
    (hg3 : ∀ g ∈ s.bgds, 3 ≤ g.get_block_bitmap_loc)
    (hneq : ∀ g ∈ s.bgds, g.get_block_bitmap_loc ≠ g.get_inode_bitmap_loc)
    (h255 : ∀ g ∈ s.bgds, rb s.disk
      (g.get_block_bitmap_loc * s.superBlock.get_block_size) = 255)
    (hipg8 : s.superBlock.inodes_per_group / 8 ≤ s.superBlock.get_block_size)
    (htbl : 2048 + s.bgds.length * 64 ≤ 3 * s.superBlock.get_block_size)
    (hbpg8 : 8 ≤ s.superBlock.blocks_per_group)
    (hbpg48 : s.bgds.length * s.superBlock.blocks_per_group ≤ 2 ^ 48) :
    FrameOK s (Dir.create_dir dir s path uid gid perm time).2 := by
  induction path generalizing dir with
  | nil => exact FrameOK.rfl s
  | cons name rest ih =>
    unfold Dir.create_dir
    simp only []
    split
    · split
      · exact FrameOK.rfl s
      rename_i entry hfind
      split
      · exact FrameOK.rfl s
      rename_i child htodir
      obtain ⟨pos, hpos, hchild⟩ := to_dir_inode_shape s entry child htodir
      refine ih child ?_
      intro extents hex e hmem
      rw [hchild] at hex
      exact AllInodesOK_spec s hai entry.get_inode pos hpos extents hex e hmem
    · split
      · exact FrameOK.rfl s
      · exact FrameOK.rfl s
      split
      · rename_i e s1 heq1
        have hf := alloc_inode_frame s true hbs (fun g hm => (hlocs g hm).2.1)
        rwa [heq1] at hf
      rename_i new_ino s1 heq1
      have hf1 : FrameOK s s1 := by
        have hf := alloc_inode_frame s true hbs (fun g hm => (hlocs g hm).2.1)
        rwa [heq1] at hf
      have hbs1 : 1024 ≤ s1.superBlock.get_block_size := by rw [hf1.sb]; exact hbs
      have hlocs1 : ∀ g ∈ s1.bgds, 2 ≤ g.get_block_bitmap_loc ∧
          2 ≤ g.get_inode_bitmap_loc ∧ 2 ≤ g.get_inode_table_loc := by
        intro g hm
        obtain ⟨g0, hm0, he⟩ := hf1.locs_mem hm
        obtain ⟨hb0, hi0, ht0⟩ := hlocs g0 hm0
        exact ⟨by rw [← bgdLocs_bb he]; exact hb0, by rw [← bgdLocs_ib he]; exact hi0,
          by rw [← bgdLocs_it he]; exact ht0⟩
      split
      · exact hf1
      split
      · rename_i e s2 heq2
        have hf := alloc_contiguous_frame s1 1
          ((new_ino - 1) / s.superBlock.inodes_per_group) hbs1
          (fun g hm => (hlocs1 g hm).1)
        rw [heq2] at hf
        exact FrameOK.trans hf1 hf
      rename_i nbs s2 heq2
      have hf2 : FrameOK s s2 := by
        have hf := alloc_contiguous_frame s1 1
          ((new_ino - 1) / s.superBlock.inodes_per_group) hbs1
          (fun g hm => (hlocs1 g hm).1)
        rw [heq2] at hf
        exact FrameOK.trans hf1 hf
      have hbs2 : 1024 ≤ s2.superBlock.get_block_size := by rw [hf2.sb]; exact hbs
      have hlocs2 : ∀ g ∈ s2.bgds, 2 ≤ g.get_block_bitmap_loc ∧
          2 ≤ g.get_inode_bitmap_loc ∧ 2 ≤ g.get_inode_table_loc := by
        intro g hm
        obtain ⟨g0, hm0, he⟩ := hf2.locs_mem hm
        obtain ⟨hb0, hi0, ht0⟩ := hlocs g0 hm0
        exact ⟨by rw [← bgdLocs_bb he]; exact hb0, by rw [← bgdLocs_ib he]; exact hi0,
          by rw [← bgdLocs_it he]; exact ht0⟩
      obtain ⟨hdesc, hipg, bgd0, hg0, bm0, gb0, hbm0, hgb0, hdisk1⟩ :=
        alloc_inode_ok_shape s true new_ino s1 heq1
      obtain ⟨bgd1, start, hg1, hfc, hnbs⟩ := alloc_contiguous_ok_start s1 1
        ((new_ino - 1) / s.superBlock.inodes_per_group) nbs s2 heq2
      have hl := hf1.locs ((new_ino - 1) / s.superBlock.inodes_per_group)
      rw [hg1, hg0] at hl
      simp only [Option.map] at hl
      injection hl with hlocs01
      have hbb01 : bgd1.get_block_bitmap_loc = bgd0.get_block_bitmap_loc :=
        bgdLocs_bb hlocs01
      have hsb1 := hf1.sb
      rw [hsb1, hbb01] at hfc
      rw [hsb1] at hnbs
      have hbyte := alloc_inode_preserves_bb_byte s s1 true new_ino heq1 hbs hipg8 htbl
        hg3 hneq bgd0 hg0
      have h255b : rb s1.disk
          (bgd0.get_block_bitmap_loc * s.superBlock.get_block_size) = 255 := by
        rw [hbyte]
        exact h255 bgd0 (List.get?_mem hg0)
      have hgidlt : (new_ino - 1) / s.superBlock.inodes_per_group < s.bgds.length :=
        get?_some_lt _ _ _ hg0
      have hbpgle : s.superBlock.blocks_per_group ≤ 2 ^ 48 := by
        have h1 : 1 * s.superBlock.blocks_per_group ≤
            s.bgds.length * s.superBlock.blocks_per_group :=
          Nat.mul_le_mul_right _ (Nat.lt_of_le_of_lt (Nat.zero_le _) hgidlt)
        rw [one_mul] at h1
        omega
      have hstart := fcub_head255_bounds
        (Bitmap.deserialize s1.disk
          (bgd0.get_block_bitmap_loc * s.superBlock.get_block_size)
          (s.superBlock.blocks_per_group / 8)) 1 start (le_refl 1)
        (by
          rw [bitmap_deserialize_getD0 s1.disk
            (bgd0.get_block_bitmap_loc * s.superBlock.get_block_size)
            (s.superBlock.blocks_per_group / 8) (by omega)]
          exact h255b)
        (List.ne_nil_of_length_pos (by rw [bitmap_deserialize_length]; omega))
        (by rw [bitmap_deserialize_length]; omega) hfc
      rw [bitmap_deserialize_length] at hstart
      have hnbsbound : 2 ≤ nbs ∧ nbs < 2 ^ 48 := by
        constructor
        · omega
        · have h2 : ((new_ino - 1) / s.superBlock.inodes_per_group + 1) *
              s.superBlock.blocks_per_group ≤
              s.bgds.length * s.superBlock.blocks_per_group :=
            Nat.mul_le_mul_right _ hgidlt
          rw [Nat.succ_mul] at h2
          omega
      have hwe : 2048 ≤ (Extent.new 0 1 nbs).get_block_loc *
          s.superBlock.get_block_size := by
        rw [extent_new_block_loc _ _ _ hnbsbound.2]
        exact two_mul_le _ _ hnbsbound.1 hbs
      split
      · exact hf2
      rename_i new_inode2 heq3
      rename_i new_inode2 heq3
      generalize hB : (new_inode2.compute_and_set_checksum (new_ino % 4294967296)
        (s.superBlock.get_inode_size % 65536) s.superBlock.uuid).serializeBytes = B
      split
      · exact hf2
      rename_i pos hposok
      have hge : 2048 ≤ pos := get_inode_pos_ge s2 new_ino pos hbs2
        (fun g hm => (hlocs2 g hm).2.2) hposok
      split
      · exact FrameOK.trans hf2 (FrameOK.write s2 pos B hge)
      rename_i new_entries heq5
      split
      · rename_i e d4 heq6
        have hd4 : ∀ a, 1024 ≤ a → a < 2048 → d4 a = s.disk a := by
          intro a h1 h2
          have hp := writeEntriesLoop_preserves (Extent.new 0 1 nbs)
            s.superBlock.get_block_size new_entries (writeBytes s2.disk pos B) 0
            hwe a h2
          rw [heq6] at hp
          have hp2 : d4 a = writeBytes s2.disk pos B a := hp
          rw [hp2, writeBytes_lt]
          · exact hf2.disk a h1 h2
          · omega
        exact ⟨hf2.sb, hd4, hf2.len, hf2.locs⟩
      rename_i u d4 heq6
      have hd4 : ∀ a, 1024 ≤ a → a < 2048 → d4 a = s.disk a := by
        intro a h1 h2
        have hp := writeEntriesLoop_preserves (Extent.new 0 1 nbs)
          s.superBlock.get_block_size new_entries (writeBytes s2.disk pos B) 0
          hwe a h2
        rw [heq6] at hp
        have hp2 : d4 a = writeBytes s2.disk pos B a := hp
        rw [hp2, writeBytes_lt]
        · exact hf2.disk a h1 h2
        · omega
      have hfs4 : FrameOK s ({ s2 with disk := d4 }) := ⟨hf2.sb, hd4, hf2.len, hf2.locs⟩
      have hfadd := add_dir_entry_frame dir ({ s2 with disk := d4 })
        (new_ino % 4294967296) name (some 2) hbs2 hdx
        (fun g hm => (hlocs2 g hm).2.2)
      split
      · rename_i e s5 heq7
        rw [heq7] at hfadd
        exact FrameOK.trans hfs4 hfadd
      · rename_i r s5 heq7
        rw [heq7] at hfadd
        exact FrameOK.trans hfs4 hfadd

/-- C10: no allocation or creation operation modifies the superblock.
For a sane on-image layout (block size at least 1024, bitmap and table
blocks past the superblock's block, and for create_dir a descriptor
table below block 3, a 0xFF leading block-bitmap byte per group and
in-range group geometry), every alloc_inode, alloc_contiguous_blocks,
create_file and create_dir call leaves the in-memory superblock record
- hence the volume-wide free_blocks_count and free_inodes_count totals,
  which live only there - and the on-disk superblock bytes (addresses
1024 to 2047) identical before and after the operation. -/
theorem alloc_create_superblock_frame :
    (∀ s is_dir,
      1024 ≤ s.superBlock.get_block_size →
      (∀ g ∈ s.bgds, 2 ≤ g.get_inode_bitmap_loc) →
      (FileSystem.alloc_inode s is_dir).2.superBlock = s.superBlock ∧
      ∀ a, 1024 ≤ a → a < 2048 →
        (FileSystem.alloc_inode s is_dir).2.disk a = s.disk a) ∧
    (∀ s count bgd_id,
      1024 ≤ s.superBlock.get_block_size →
      (∀ g ∈ s.bgds, 2 ≤ g.get_block_bitmap_loc) →
      (FileSystem.alloc_contiguous_blocks s count bgd_id).2.superBlock = s.superBlock ∧
      ∀ a, 1024 ≤ a → a < 2048 →
        (FileSystem.alloc_contiguous_blocks s count bgd_id).2.disk a = s.disk a) ∧
    (∀ path dir s uid gid perm time,
      1024 ≤ s.superBlock.get_block_size →
      (∀ g ∈ s.bgds, 2 ≤ g.get_block_bitmap_loc ∧ 2 ≤ g.get_inode_bitmap_loc ∧
        2 ≤ g.get_inode_table_loc) →
      AllInodesOK s = true →
      extentsLocOK dir.inode = true →
      (Dir.create_file dir s path uid gid perm time).2.superBlock = s.superBlock ∧
      ∀ a, 1024 ≤ a → a < 2048 →
        (Dir.create_file dir s path uid gid perm time).2.disk a = s.disk a) ∧
    (∀ path dir s uid gid perm time,
      1024 ≤ s.superBlock.get_block_size →
      (∀ g ∈ s.bgds, 3 ≤ g.get_block_bitmap_loc ∧ 2 ≤ g.get_inode_bitmap_loc ∧
        2 ≤ g.get_inode_table_loc ∧
        g.get_block_bitmap_loc ≠ g.get_inode_bitmap_loc ∧
        rb s.disk (g.get_block_bitmap_loc * s.superBlock.get_block_size) = 255) →
      AllInodesOK s = true →
      extentsLocOK dir.inode = true →
      s.superBlock.inodes_per_group / 8 ≤ s.superBlock.get_block_size →
      2048 + s.bgds.length * 64 ≤ 3 * s.superBlock.get_block_size →
      8 ≤ s.superBlock.blocks_per_group →
      s.bgds.length * s.superBlock.blocks_per_group ≤ 2 ^ 48 →
      (Dir.create_dir dir s path uid gid perm time).2.superBlock = s.superBlock ∧
      ∀ a, 1024 ≤ a → a < 2048 →
        (Dir.create_dir dir s path uid gid perm time).2.disk a = s.disk a) := by
  refine ⟨?_, ?_, ?_, ?_⟩
  · intro s is_dir hbs hib
    have hf := alloc_inode_frame s is_dir hbs hib
    exact ⟨hf.sb, hf.disk⟩
  · intro s count bgd_id hbs hbb
    have hf := alloc_contiguous_frame s count bgd_id hbs hbb
    exact ⟨hf.sb, hf.disk⟩
  · intro path dir s uid gid perm time hbs hlocs hai hdx
    have hf := create_file_frame path dir s uid gid perm time hbs hlocs hai
      (extentsLocOK_spec dir.inode hdx)
    exact ⟨hf.sb, hf.disk⟩
  · intro path dir s uid gid perm time hbs hl hai hdx hipg8 htbl hbpg8 hbpg48
    have hf := create_dir_frame path dir s uid gid perm time hbs
      (fun g hm => ⟨by have := (hl g hm).1; omega, (hl g hm).2.1, (hl g hm).2.2.1⟩)
      hai (extentsLocOK_spec dir.inode hdx)
      (fun g hm => (hl g hm).1) (fun g hm => (hl g hm).2.2.2.1)
      (fun g hm => (hl g hm).2.2.2.2) hipg8 htbl hbpg8 hbpg48
    exact ⟨hf.sb, hf.disk⟩

/-- The test state with a fully used leading block-bitmap byte, meeting
every layout hypothesis of the superblock frame theorem. -/
def fsW : FsState := ⟨sbT, [bgdT], writeBytes diskT 3072 [255]⟩

/-- Witness: the superblock frame theorem applied to the concrete
8-block image for each of the four operations, with byte 1080 (the
on-disk magic) as the sampled superblock byte. -/
theorem alloc_create_superblock_frame_witness :
    (FileSystem.alloc_inode fsW true).2.superBlock = fsW.superBlock ∧
    (FileSystem.alloc_contiguous_blocks fsW 1 0).2.superBlock = fsW.superBlock ∧
    (Dir.create_file rootDirT fsW [[110, 102]] 0 0 420 0).2.superBlock = fsW.superBlock ∧
    (Dir.create_dir rootDirT fsW [[110, 100]] 0 0 493 0).2.superBlock = fsW.superBlock ∧
    (Dir.create_dir rootDirT fsW [[110, 100]] 0 0 493 0).2.disk 1080 = fsW.disk 1080 :=
  ⟨(alloc_create_superblock_frame.1 fsW true (by decide) (by decide)).1,
   (alloc_create_superblock_frame.2.1 fsW 1 0 (by decide) (by decide)).1,
   (alloc_create_superblock_frame.2.2.1 [[110, 102]] rootDirT fsW 0 0 420 0
      (by decide) (by decide) (by decide) (by decide)).1,
   (alloc_create_superblock_frame.2.2.2 [[110, 100]] rootDirT fsW 0 0 493 0
      (by decide) (by decide) (by decide) (by decide) (by decide) (by decide)
      (by decide) (by decide)).1,
   (alloc_create_superblock_frame.2.2.2 [[110, 100]] rootDirT fsW 0 0 493 0
      (by decide) (by decide) (by decide) (by decide) (by decide) (by decide)
      (by decide) (by decide)).2 1080 (by decide) (by decide)⟩
